import Mathlib

/-!
Shallow embedding of the background task orchestrator of the
dbx-research-task-app repository, together with theorems settling the
frozen claims about it.

The embedding covers:
* the data model of src/agent_server/db/models.py (TaskStatus, ResearchTask,
  OutputFile), with timestamps modelled by a monotone logical clock (a Nat
  drawn from a counter threaded through the state) and floats modelled by ℚ;
* the module-level registries and the TaskManager methods of
  src/agent_server/tasks/manager.py;
* the runner loop and output-file reconciler of
  src/agent_server/tasks/runner.py, with the external worker event stream
  given as an explicit finite list of typed events and the filesystem
  listing produced by rglob given as an explicit list of file entries;
* the SSE endpoint stream_task_updates of src/agent_server/api/routes.py,
  as far as its branch selection and the already-terminal replay go.

asyncio queues are modelled with identity: the stream registry maps a task
id to a queue id, and a separate table maps queue ids to their contents.
This mirrors the Python dict holding distinct Queue objects and lets us
reason about a subscriber that keeps an old queue handle.
-/

namespace ResearchApp

/-- Association-list lookup over string-keyed tables. -/
def lookupA {β : Type} (l : List (String × β)) (k : String) : Option β :=
  match l with
  | [] => none
  | (k₀, v₀) :: rest => if k₀ = k then some v₀ else lookupA rest k

/-- Association-list update: replace the value at key `k` wherever it occurs
(dict assignment when the key is present). -/
def setA {β : Type} (l : List (String × β)) (k : String) (v : β) : List (String × β) :=
  match l with
  | [] => []
  | (k₀, v₀) :: rest => (k₀, if k₀ = k then v else v₀) :: setA rest k v

/-- Dict assignment `d[k] = v`: update in place when present, append otherwise. -/
def putA {β : Type} (l : List (String × β)) (k : String) (v : β) : List (String × β) :=
  if (lookupA l k).isSome then setA l k v else l ++ [(k, v)]

/-- Map the value at key `k`, leaving other entries alone. -/
def mapAtA {β : Type} (l : List (String × β)) (k : String) (f : β → β) :
    List (String × β) :=
  match l with
  | [] => []
  | (k₀, v₀) :: rest => (k₀, if k₀ = k then f v₀ else v₀) :: mapAtA rest k f

/-- Association-list removal (`dict.pop(k, None)`). -/
def dropA {β : Type} (l : List (String × β)) (k : String) : List (String × β) :=
  match l with
  | [] => []
  | (k₀, v₀) :: rest => if k₀ = k then dropA rest k else (k₀, v₀) :: dropA rest k

/-- Nat-keyed association-list lookup (used for the queue table). -/
def lookupQ {β : Type} (l : List (Nat × β)) (k : Nat) : Option β :=
  match l with
  | [] => none
  | (k₀, v₀) :: rest => if k₀ = k then some v₀ else lookupQ rest k

/-- Nat-keyed map-at (used to append an event to one queue). -/
def mapAtQ {β : Type} (l : List (Nat × β)) (k : Nat) (f : β → β) : List (Nat × β) :=
  match l with
  | [] => []
  | (k₀, v₀) :: rest => (k₀, if k₀ = k then f v₀ else v₀) :: mapAtQ rest k f

/-- TaskStatus enumeration from db/models.py. -/
inductive TaskStatus where
  | pending
  | running
  | completed
  | failed
  | cancelled
  deriving DecidableEq, Repr

/-- The string stored in the status column (`TaskStatus.X.value`). -/
def TaskStatus.value : TaskStatus → String
  | .pending => "pending"
  | .running => "running"
  | .completed => "completed"
  | .failed => "failed"
  | .cancelled => "cancelled"

/-- A terminal status: COMPLETED, FAILED or CANCELLED. -/
def TaskStatus.isTerminal : TaskStatus → Bool
  | .completed => true
  | .failed => true
  | .cancelled => true
  | _ => false

/-- Usage statistics blob (`usage_stats` JSON column); carried opaquely. -/
abbrev Usage := List (String × Nat)

/-- One row of the research_tasks table (db/models.py, ResearchTask).
Timestamps are logical-clock values. -/
structure TaskRec where
  sessionId : String
  prompt : String
  taskType : String
  status : TaskStatus
  progress : ℚ
  progressMessage : Option String
  startedAt : Option Nat
  completedAt : Option Nat
  errorMessage : Option String
  totalCostUsd : Option ℚ
  usageStats : Option Usage
  lastStreamedContent : Option String
  createdAt : Nat
  updatedAt : Nat
  deriving DecidableEq, Repr

/-- One row of the output_files table (db/models.py, OutputFile). -/
structure OutputFileRow where
  id : Nat
  sessionId : String
  taskId : Option String
  filename : String
  filepath : String
  fileType : String
  fileSize : Option Nat
  deriving DecidableEq, Repr

/-- Events pushed into a live task queue by the TaskManager
(the dicts put into `_task_streams[task_id]` in manager.py). -/
inductive QueueEvent where
  | progress (progress : ℚ) (message : Option String)
  | done (status : String)
  | error (message : String)
  deriving DecidableEq, Repr

/-- The whole mutable state touched by the orchestrator: the store tables,
the module-level `_running_tasks` and `_task_streams` registries, the queue
contents, allocation counters and the logical clock feeding utcnow. -/
structure ManagerState where
  sessions : List String
  store : List (String × TaskRec)
  files : List OutputFileRow
  runningTasks : List String
  streamRegistry : List (String × Nat)
  queues : List (Nat × List QueueEvent)
  nextQueueId : Nat
  nextFileId : Nat
  spawned : List String
  clock : Nat
  deriving DecidableEq, Repr

/-- Read the current utcnow value and advance the logical clock. -/
def tick (st : ManagerState) : Nat × ManagerState :=
  (st.clock, { st with clock := st.clock + 1 })

/-- Convenience: the stored record of a task. -/
def ManagerState.task (st : ManagerState) (taskId : String) : Option TaskRec :=
  lookupA st.store taskId

/-- Convenience: the contents of the queue with a given id. -/
def ManagerState.queue (st : ManagerState) (q : Nat) : Option (List QueueEvent) :=
  lookupQ st.queues q

/-- Push an event onto the live queue of a task, when one is registered
(`if task_id in _task_streams: await _task_streams[task_id].put(...)`). -/
def pushEvent (taskId : String) (ev : QueueEvent) (st : ManagerState) : ManagerState :=
  match lookupA st.streamRegistry taskId with
  | none => st
  | some q => { st with queues := mapAtQ st.queues q (fun l => l ++ [ev]) }

/-- Allocate a fresh empty queue, returning its id. -/
def freshQueue (st : ManagerState) : Nat × ManagerState :=
  (st.nextQueueId,
   { st with queues := st.queues ++ [(st.nextQueueId, [])],
             nextQueueId := st.nextQueueId + 1 })

/-- TaskManager.create_task: ensure the session exists, then insert a new
PENDING task row. The task id stands in for `str(uuid4())`. -/
def createTask (sessionId prompt taskType taskId : String) (st : ManagerState) :
    ManagerState :=
  let st :=
    if sessionId ∈ st.sessions then st
    else { st with sessions := st.sessions ++ [sessionId] }
  let (now, st) := tick st
  let row : TaskRec :=
    { sessionId := sessionId, prompt := prompt, taskType := taskType,
      status := .pending, progress := 0, progressMessage := none,
      startedAt := none, completedAt := none, errorMessage := none,
      totalCostUsd := none, usageStats := none, lastStreamedContent := none,
      createdAt := now, updatedAt := now }
  { st with store := st.store ++ [(taskId, row)] }

/-- TaskManager.start_task: unconditionally spawn a runner coroutine, store
its handle in `_running_tasks[task_id]` and install a fresh empty queue in
`_task_streams[task_id]`. There is no membership check. -/
def startTask (taskId : String) (st : ManagerState) : ManagerState :=
  let st := { st with spawned := st.spawned ++ [taskId] }
  let st :=
    if taskId ∈ st.runningTasks then st
    else { st with runningTasks := st.runningTasks ++ [taskId] }
  let (q, st) := freshQueue st
  { st with streamRegistry := putA st.streamRegistry taskId q }

/-- TaskManager.update_task_progress: write progress and message to the
store (when the task exists) and push a progress event to the live queue
(when one is registered). -/
def updateTaskProgress (taskId : String) (progress : ℚ) (message : Option String)
    (st : ManagerState) : ManagerState :=
  let (now, st) := tick st
  let st :=
    { st with store := mapAtA st.store taskId (fun t =>
        { t with progress := progress, progressMessage := message,
                 updatedAt := now }) }
  pushEvent taskId (.progress progress message) st

/-- TaskManager.update_task_content: snapshot the accumulated content. -/
def updateTaskContent (taskId content : String) (st : ManagerState) : ManagerState :=
  let (now, st) := tick st
  { st with store := mapAtA st.store taskId (fun t =>
      { t with lastStreamedContent := some content, updatedAt := now }) }

/-- TaskManager.complete_task: unconditionally mark the task COMPLETED with
progress 1.0, stamp completed_at, store final content, usage and cost, push
one done/completed queue event, and pop the running-task entry. There is no
check that the task is not already terminal. -/
def completeTask (taskId content : String) (usage : Option Usage)
    (costUsd : Option ℚ) (st : ManagerState) : ManagerState :=
  let (now, st) := tick st
  let st :=
    { st with store := mapAtA st.store taskId (fun t =>
        { t with status := .completed, progress := 1,
                 progressMessage := some "Research complete",
                 completedAt := some now, lastStreamedContent := some content,
                 usageStats := usage, totalCostUsd := costUsd }) }
  let st := pushEvent taskId (.done "completed") st
  { st with runningTasks := st.runningTasks.erase taskId }

/-- TaskManager.fail_task: unconditionally mark the task FAILED with the
given error message, stamp completed_at, push one error queue event, and pop
the running-task entry. There is no terminal-status check. -/
def failTask (taskId errorMessage : String) (st : ManagerState) : ManagerState :=
  let (now, st) := tick st
  let st :=
    { st with store := mapAtA st.store taskId (fun t =>
        { t with status := .failed, errorMessage := some errorMessage,
                 completedAt := some now }) }
  let st := pushEvent taskId (.error errorMessage) st
  { st with runningTasks := st.runningTasks.erase taskId }

/-- TaskManager.subscribe_to_task: return the registered queue for the task,
creating one lazily when absent. -/
def subscribeToTask (taskId : String) (st : ManagerState) : Nat × ManagerState :=
  match lookupA st.streamRegistry taskId with
  | some q => (q, st)
  | none =>
      let (q, st) := freshQueue st
      (q, { st with streamRegistry := putA st.streamRegistry taskId q })

/-- TaskManager.cancel_task: when the task id is in `_running_tasks`, cancel
the runner, mark the stored row CANCELLED with completed_at stamped, push one
done/cancelled queue event, pop the running entry and return true; otherwise
return false and touch nothing. -/
def cancelTask (taskId : String) (st : ManagerState) : ManagerState × Bool :=
  if taskId ∈ st.runningTasks then
    let (now, st) := tick st
    let st :=
      { st with store := mapAtA st.store taskId (fun t =>
          { t with status := .cancelled, completedAt := some now }) }
    let st := pushEvent taskId (.done "cancelled") st
    ({ st with runningTasks := st.runningTasks.erase taskId }, true)
  else
    (st, false)

/-- TaskManager.is_task_running. -/
def isTaskRunning (taskId : String) (st : ManagerState) : Bool :=
  taskId ∈ st.runningTasks

/-- TaskManager.cleanup_stream: drop the queue registration for a task. -/
def cleanupStream (taskId : String) (st : ManagerState) : ManagerState :=
  { st with streamRegistry := dropA st.streamRegistry taskId }

/-! ## The Task Runner (src/agent_server/tasks/runner.py) -/

/-- One typed event of the external worker stream, as consumed by
run_research_task. Token text, tool name, usage, cost and error message
mirror the `event.get("data", ...)` accesses, with optional fields kept
optional (`.get` defaults applied at the consumption site). Events whose
type string matches none of the four handled tags are `other`. -/
inductive WorkerEvent where
  | token (text : String)
  | toolUse (name : String)
  | done (usage : Option Usage) (costUsd : Option ℚ)
  | error (message : Option String)
  | other
  deriving DecidableEq, Repr

/-- A regular file found by `output_dir.rglob("*")`, with the derived
attributes the reconciler reads: path relative to the output directory,
basename, byte size, and the lowercased extension (`filepath.suffix.lower()`). -/
structure FsFile where
  relPath : String
  name : String
  size : Nat
  suffix : String
  deriving DecidableEq, Repr

/-- runner._get_file_type: map the lowercased extension to a type tag,
defaulting to "other". -/
def getFileType (suffix : String) : String :=
  if suffix = ".md" then "markdown"
  else if suffix = ".json" then "json"
  else if suffix = ".csv" then "csv"
  else if suffix = ".txt" then "text"
  else if suffix = ".html" then "html"
  else if suffix = ".pdf" then "pdf"
  else "other"

/-- The filepaths already registered for a session
(`select(OutputFile.filepath).where(OutputFile.session_id == session_id)`). -/
def existingPaths (sessionId : String) (files : List OutputFileRow) : List String :=
  (files.filter (fun r => r.sessionId = sessionId)).map (fun r => r.filepath)

/-- The scan loop of runner._scan_output_files: walk the directory listing
and collect a new OutputFile row for every relative path not in the
existing-path set, which is fixed before the loop starts. Fresh row ids
stand in for `str(uuid4())`. -/
def scanLoop (taskId sessionId : String) (existing : List String)
    (dirFiles : List FsFile) (acc : List OutputFileRow) (nextId : Nat) :
    List OutputFileRow × Nat :=
  match dirFiles with
  | [] => (acc, nextId)
  | f :: rest =>
      if f.relPath ∈ existing then
        scanLoop taskId sessionId existing rest acc nextId
      else
        scanLoop taskId sessionId existing rest
          (acc ++ [{ id := nextId, sessionId := sessionId, taskId := some taskId,
                     filename := f.name, filepath := f.relPath,
                     fileType := getFileType f.suffix,
                     fileSize := some f.size }]) (nextId + 1)

/-- runner._scan_output_files: register every untracked file of the shared
output directory for the session, attributing each new row to the given
task. An absent output directory is the empty listing. -/
def scanOutputFiles (taskId sessionId : String) (dirFiles : List FsFile)
    (st : ManagerState) : ManagerState :=
  let existing := existingPaths sessionId st.files
  let (newRows, nid) := scanLoop taskId sessionId existing dirFiles [] st.nextFileId
  { st with files := st.files ++ newRows, nextFileId := nid }

/-- In-memory state of one runner loop iteration: the accumulated content
string, the tool-use counter, and the shared orchestrator state. -/
structure RunnerAcc where
  accumulated : String
  toolCount : Nat
  mgr : ManagerState

/-- One iteration of the `async for event in stream_agent_response(...)`
loop of run_research_task. -/
def runnerStep (taskId sessionId : String) (dirFiles : List FsFile)
    (rs : RunnerAcc) (ev : WorkerEvent) : RunnerAcc :=
  match ev with
  | .token text =>
      let acc := rs.accumulated ++ text
      let mgr :=
        if acc.length % 1000 < text.length then updateTaskContent taskId acc rs.mgr
        else rs.mgr
      { rs with accumulated := acc, mgr := mgr }
  | .toolUse name =>
      let tc := rs.toolCount + 1
      let progress := min (9/10 : ℚ) (tc * (1/10))
      let message := "Using " ++ name ++ "..."
      { rs with toolCount := tc,
                mgr := updateTaskProgress taskId progress (some message) rs.mgr }
  | .done usage costUsd =>
      let mgr := scanOutputFiles taskId sessionId dirFiles rs.mgr
      { rs with mgr := completeTask taskId rs.accumulated usage costUsd mgr }
  | .error message =>
      { rs with mgr := failTask taskId (message.getD "Unknown error") rs.mgr }
  | .other => rs

/-- run_research_task: load the task (aborting silently when absent), mark
it RUNNING with started_at stamped and progress reset, then fold the worker
event stream through runnerStep. The worker stream and the directory
listing at reconciliation time are explicit parameters. -/
def runResearchTask (taskId : String) (events : List WorkerEvent)
    (dirFiles : List FsFile) (st : ManagerState) : ManagerState :=
  match lookupA st.store taskId with
  | none => st
  | some task =>
      let sessionId := task.sessionId
      let (now, st) := tick st
      let st :=
        { st with store := mapAtA st.store taskId (fun t =>
            { t with status := .running, startedAt := some now, progress := 0,
                     progressMessage := some "Starting research..." }) }
      (events.foldl (runnerStep taskId sessionId dirFiles)
        { accumulated := "", toolCount := 0, mgr := st }).mgr

/-! ## The SSE stream endpoint (src/agent_server/api/routes.py) -/

/-- A server-sent event emitted by stream_task_updates. `content` and
`doneReplay` are the already-terminal replay events; `errorNotFound` is the
immediate error for an unknown task id. -/
inductive SSE where
  | errorNotFound (message : String)
  | content (text : String)
  | doneReplay (status : String) (error : Option String)
  deriving DecidableEq, Repr

/-- The branch stream_task_updates commits to: an immediate error generator,
a finite replay of terminal state, or an attachment to the live queue with
the given id. -/
inductive StreamResponse where
  | notFound (events : List SSE)
  | terminalReplay (events : List SSE)
  | live (queueId : Nat)
  deriving DecidableEq, Repr

/-- routes.stream_task_updates up to the point where the response generator
is fixed: 404-style error generator for an unknown task; for a terminal task
a replay of the last content snapshot (when truthy) followed by one done
event, touching no registry; otherwise start the task when PENDING and
subscribe to its live queue. -/
def streamTaskUpdates (taskId : String) (st : ManagerState) :
    StreamResponse × ManagerState :=
  match lookupA st.store taskId with
  | none => (.notFound [.errorNotFound "Task not found"], st)
  | some task =>
      if task.status.isTerminal then
        let contentEvents :=
          match task.lastStreamedContent with
          | some c => if c ≠ "" then [SSE.content c] else []
          | none => []
        (.terminalReplay (contentEvents ++
            [.doneReplay task.status.value task.errorMessage]), st)
      else
        let st := if task.status = .pending then startTask taskId st else st
        let (q, st) := subscribeToTask taskId st
        (.live q, st)

/-! ## Concrete states used as counterexamples and witnesses -/

/-- A task row that has completed. -/
def exCompletedTask : TaskRec :=
  { sessionId := "s1", prompt := "Summarize X", taskType := "research",
    status := .completed, progress := 1,
    progressMessage := some "Research complete", startedAt := some 1,
    completedAt := some 2, errorMessage := none, totalCostUsd := none,
    usageStats := none, lastStreamedContent := some "report", createdAt := 0,
    updatedAt := 2 }

/-- Orchestrator state holding one already-terminal task: the runner has
completed, the running-task entry is popped, the stream is cleaned up. -/
def exTerminalState : ManagerState :=
  { sessions := ["s1"], store := [("t1", exCompletedTask)], files := [],
    runningTasks := [], streamRegistry := [], queues := [], nextQueueId := 1,
    nextFileId := 0, spawned := ["t1"], clock := 3 }

/-- A task row currently running. -/
def exRunningTask : TaskRec :=
  { sessionId := "s1", prompt := "Summarize X", taskType := "research",
    status := .running, progress := 0,
    progressMessage := some "Starting research...", startedAt := some 1,
    completedAt := none, errorMessage := none, totalCostUsd := none,
    usageStats := none, lastStreamedContent := none, createdAt := 0,
    updatedAt := 1 }

/-- Orchestrator state holding one running task with a registered live
queue. -/
def exRunningState : ManagerState :=
  { sessions := ["s1"], store := [("t1", exRunningTask)], files := [],
    runningTasks := ["t1"], streamRegistry := [("t1", 0)], queues := [(0, [])],
    nextQueueId := 1, nextFileId := 0, spawned := ["t1"], clock := 2 }

/-! ## Worker-stream measures and views of the runner loop -/

/-- A terminal worker event: done or error. -/
def WorkerEvent.isTerminal : WorkerEvent → Bool
  | .done _ _ => true
  | .error _ => true
  | _ => false

/-- The tool names carried by the tool_use events of a stream, in order. -/
def toolNames : List WorkerEvent → List String
  | [] => []
  | .toolUse name :: rest => name :: toolNames rest
  | _ :: rest => toolNames rest

/-- A stream with no terminal event at all. -/
def terminalFree (evs : List WorkerEvent) : Bool :=
  evs.all (fun e => !e.isTerminal)

/-- Well-formed worker stream per the worker contract: a terminal event can
only be the last event. -/
def streamWF : List WorkerEvent → Bool
  | [] => true
  | e :: rest => if e.isTerminal then rest.isEmpty else streamWF rest

/-- The progress values carried by the progress events of a queue trace. -/
def progressValues : List QueueEvent → List ℚ
  | [] => []
  | .progress p _ :: rest => p :: progressValues rest
  | _ :: rest => progressValues rest

/-- The queue trace the tool_use events of a stream should produce when the
tool counter starts at `tc`: the k-th tool_use from there pushes
min(0.9, (tc+k) * 0.1) with the Using-message. -/
def toolProgressTrace (tc : Nat) : List String → List QueueEvent
  | [] => []
  | name :: rest =>
      QueueEvent.progress (min (9/10 : ℚ) (((tc + 1 : ℕ) : ℚ) * (1/10)))
          (some ("Using " ++ name ++ "..."))
        :: toolProgressTrace (tc + 1) rest

/-- The fold of the runner loop body over a worker event stream. -/
def runFold (taskId sessionId : String) (d : List FsFile)
    (evs : List WorkerEvent) (rs : RunnerAcc) : RunnerAcc :=
  evs.foldl (runnerStep taskId sessionId d) rs

/-! ## Operation sequences and registry/row predicates -/

/-- One call into the public TaskManager surface (or one whole runner
execution), used to quantify over arbitrary orchestrator histories. -/
inductive ManagerOp where
  | create (sessionId prompt taskType taskId : String)
  | start (taskId : String)
  | updateProgress (taskId : String) (progress : ℚ) (message : Option String)
  | updateContent (taskId content : String)
  | complete (taskId content : String) (usage : Option Usage) (costUsd : Option ℚ)
  | fail (taskId errorMessage : String)
  | subscribe (taskId : String)
  | cancel (taskId : String)
  | cleanup (taskId : String)
  | run (taskId : String) (events : List WorkerEvent) (dirFiles : List FsFile)

/-- Apply one TaskManager operation to the orchestrator state. -/
def applyOp (st : ManagerState) : ManagerOp → ManagerState
  | .create sessionId prompt taskType taskId =>
      createTask sessionId prompt taskType taskId st
  | .start taskId => startTask taskId st
  | .updateProgress taskId progress message =>
      updateTaskProgress taskId progress message st
  | .updateContent taskId content => updateTaskContent taskId content st
  | .complete taskId content usage costUsd =>
      completeTask taskId content usage costUsd st
  | .fail taskId errorMessage => failTask taskId errorMessage st
  | .subscribe taskId => (subscribeToTask taskId st).2
  | .cancel taskId => (cancelTask taskId st).1
  | .cleanup taskId => cleanupStream taskId st
  | .run taskId events dirFiles => runResearchTask taskId events dirFiles st

/-- Apply a sequence of TaskManager operations in order. -/
def applyOps (ops : List ManagerOp) (st : ManagerState) : ManagerState :=
  ops.foldl applyOp st

/-- A queue id no actor can reach any more: below the allocation counter and
registered for no task. Pushes only ever target registered queue ids, so an
orphaned queue never changes again. -/
def orphaned (q : Nat) (st : ManagerState) : Prop :=
  q < st.nextQueueId ∧ ∀ p ∈ st.streamRegistry, p.2 ≠ q

/-- Run the Reconciler once per entry: each run has its own scanning task,
session and directory listing. -/
def runScans (scans : List (String × String × List FsFile)) (st : ManagerState) :
    ManagerState :=
  scans.foldl (fun s p => scanOutputFiles p.1 p.2.1 p.2.2 s) st

/-- The OutputFile-table invariant: no two rows share (session_id, filepath). -/
def outputKeyUnique (files : List OutputFileRow) : Prop :=
  List.Pairwise
    (fun r₁ r₂ => ¬(r₁.sessionId = r₂.sessionId ∧ r₁.filepath = r₂.filepath))
    files

/-! ## Basic lemmas about the association-list helpers -/

theorem lookupA_mapAtA_self {β : Type} (l : List (String × β)) (k : String)
    (f : β → β) : lookupA (mapAtA l k f) k = (lookupA l k).map f := by
  induction l with
  | nil => rfl
  | cons p rest ih =>
      obtain ⟨k₀, v₀⟩ := p
      by_cases h : k₀ = k
      · simp [mapAtA, lookupA, h]
      · simp [mapAtA, lookupA, h, ih]

theorem lookupA_mapAtA_ne {β : Type} (l : List (String × β)) (k k' : String)
    (f : β → β) (h : k ≠ k') : lookupA (mapAtA l k f) k' = lookupA l k' := by
  induction l with
  | nil => rfl
  | cons p rest ih =>
      obtain ⟨k₀, v₀⟩ := p
      by_cases h₀ : k₀ = k
      · subst h₀
        simp [mapAtA, lookupA, h, ih]
      · by_cases h₁ : k₀ = k'
        · simp [mapAtA, lookupA, h₀, h₁, Ne.symm h]
        · simp [mapAtA, lookupA, h₀, h₁, ih]

theorem lookupQ_mapAtQ_self {β : Type} (l : List (Nat × β)) (k : Nat)
    (f : β → β) : lookupQ (mapAtQ l k f) k = (lookupQ l k).map f := by
  induction l with
  | nil => rfl
  | cons p rest ih =>
      obtain ⟨k₀, v₀⟩ := p
      by_cases h : k₀ = k
      · simp [mapAtQ, lookupQ, h]
      · simp [mapAtQ, lookupQ, h, ih]

theorem lookupQ_mapAtQ_ne {β : Type} (l : List (Nat × β)) (k k' : Nat)
    (f : β → β) (h : k ≠ k') : lookupQ (mapAtQ l k f) k' = lookupQ l k' := by
  induction l with
  | nil => rfl
  | cons p rest ih =>
      obtain ⟨k₀, v₀⟩ := p
      by_cases h₀ : k₀ = k
      · subst h₀
        simp [mapAtQ, lookupQ, h, ih]
      · by_cases h₁ : k₀ = k'
        · simp [mapAtQ, lookupQ, h₀, h₁, Ne.symm h]
        · simp [mapAtQ, lookupQ, h₀, h₁, ih]

theorem lookupA_append {β : Type} (l l' : List (String × β)) (k : String) :
    lookupA (l ++ l') k =
      match lookupA l k with
      | some v => some v
      | none => lookupA l' k := by
  induction l with
  | nil => rfl
  | cons p rest ih =>
      obtain ⟨k₀, v₀⟩ := p
      by_cases h : k₀ = k
      · simp [lookupA, h]
      · simp [lookupA, h, ih]

theorem lookupA_setA_self {β : Type} (l : List (String × β)) (k : String)
    (v : β) : lookupA (setA l k v) k = (lookupA l k).map (fun _ => v) := by
  induction l with
  | nil => rfl
  | cons p rest ih =>
      obtain ⟨k₀, v₀⟩ := p
      by_cases h : k₀ = k
      · simp [setA, lookupA, h]
      · simp [setA, lookupA, h, ih]

theorem lookupA_putA_self {β : Type} (l : List (String × β)) (k : String)
    (v : β) : lookupA (putA l k v) k = some v := by
  unfold putA
  by_cases h : (lookupA l k).isSome
  · rw [if_pos h, lookupA_setA_self]
    cases hl : lookupA l k with
    | none => rw [hl] at h; simp at h
    | some w => simp
  · rw [if_neg h, lookupA_append]
    cases hl : lookupA l k with
    | none => simp [lookupA]
    | some w => rw [hl] at h; simp at h

theorem pushEvent_store (taskId : String) (ev : QueueEvent) (st : ManagerState) :
    (pushEvent taskId ev st).store = st.store := by
  unfold pushEvent
  cases lookupA st.streamRegistry taskId <;> rfl

theorem pushEvent_streamRegistry (taskId : String) (ev : QueueEvent)
    (st : ManagerState) :
    (pushEvent taskId ev st).streamRegistry = st.streamRegistry := by
  unfold pushEvent
  cases lookupA st.streamRegistry taskId <;> rfl

theorem pushEvent_runningTasks (taskId : String) (ev : QueueEvent)
    (st : ManagerState) :
    (pushEvent taskId ev st).runningTasks = st.runningTasks := by
  unfold pushEvent
  cases lookupA st.streamRegistry taskId <;> rfl

theorem pushEvent_clock (taskId : String) (ev : QueueEvent) (st : ManagerState) :
    (pushEvent taskId ev st).clock = st.clock := by
  unfold pushEvent
  cases lookupA st.streamRegistry taskId <;> rfl

theorem pushEvent_files (taskId : String) (ev : QueueEvent) (st : ManagerState) :
    (pushEvent taskId ev st).files = st.files := by
  unfold pushEvent
  cases lookupA st.streamRegistry taskId <;> rfl

theorem pushEvent_queue_self (taskId : String) (ev : QueueEvent)
    (st : ManagerState) (q : Nat) (hq : lookupA st.streamRegistry taskId = some q) :
    (pushEvent taskId ev st).queue q = (st.queue q).map (fun l => l ++ [ev]) := by
  unfold pushEvent
  rw [hq]
  simp [ManagerState.queue, lookupQ_mapAtQ_self]

/-! ## Per-operation views of the store -/

theorem failTask_task_self (st : ManagerState) (taskId m : String) (t : TaskRec)
    (ht : st.task taskId = some t) :
    (failTask taskId m st).task taskId =
      some { t with status := .failed, errorMessage := some m,
                    completedAt := some st.clock } := by
  simp only [failTask, tick, ManagerState.task, pushEvent_store]
  rw [lookupA_mapAtA_self]
  rw [ManagerState.task] at ht
  rw [ht]
  rfl

theorem completeTask_task_self (st : ManagerState) (taskId content : String)
    (usage : Option Usage) (costUsd : Option ℚ) (t : TaskRec)
    (ht : st.task taskId = some t) :
    (completeTask taskId content usage costUsd st).task taskId =
      some { t with status := .completed, progress := 1,
                    progressMessage := some "Research complete",
                    completedAt := some st.clock,
                    lastStreamedContent := some content,
                    usageStats := usage, totalCostUsd := costUsd } := by
  simp only [completeTask, tick, ManagerState.task, pushEvent_store]
  rw [lookupA_mapAtA_self]
  rw [ManagerState.task] at ht
  rw [ht]
  rfl

theorem cancelTask_not_running (st : ManagerState) (taskId : String)
    (h : taskId ∉ st.runningTasks) : cancelTask taskId st = (st, false) := by
  simp [cancelTask, h]

theorem lookupQ_append {β : Type} (l l' : List (Nat × β)) (k : Nat) :
    lookupQ (l ++ l') k =
      match lookupQ l k with
      | some v => some v
      | none => lookupQ l' k := by
  induction l with
  | nil => rfl
  | cons p rest ih =>
      obtain ⟨k₀, v₀⟩ := p
      by_cases h : k₀ = k
      · simp [lookupQ, h]
      · simp [lookupQ, h, ih]

theorem lookupQ_eq_none_of_lt {β : Type} (l : List (Nat × β)) (n : Nat)
    (h : ∀ p ∈ l, p.1 < n) : lookupQ l n = none := by
  induction l with
  | nil => rfl
  | cons p rest ih =>
      obtain ⟨k₀, v₀⟩ := p
      have hk : k₀ < n := h (k₀, v₀) (List.mem_cons_self _ _)
      have hne : k₀ ≠ n := Nat.ne_of_lt hk
      simp only [lookupQ, if_neg hne]
      exact ih (fun p hp => h p (List.mem_cons_of_mem _ hp))

/-! ## Claim C1 -/

/-- C1: counterexample. The claim says a further complete/fail/cancel call on
a terminal task is a no-op changing neither status nor completed_at. On the
code, fail_task has no terminal-status check: called on a COMPLETED task it
rewrites the status to FAILED and restamps completed_at. -/
theorem terminal_refire_counterexample :
    (exTerminalState.task "t1").map TaskRec.status = some .completed ∧
    ((failTask "t1" "boom" exTerminalState).task "t1").map TaskRec.status =
      some .failed ∧
    ((failTask "t1" "boom" exTerminalState).task "t1").map TaskRec.completedAt ≠
      (exTerminalState.task "t1").map TaskRec.completedAt := by
  decide

/-- C1: amended. Once a task is terminal and its running-registry entry is
popped, a further cancel_task call is a no-op returning false that changes
nothing; but complete_task and fail_task perform no terminal-status check:
called again on a terminal task they unconditionally overwrite status,
completed_at and the other completion fields. -/
theorem terminal_task_second_calls (st : ManagerState)
    (taskId m content : String) (usage : Option Usage) (costUsd : Option ℚ)
    (t : TaskRec) (hrun : taskId ∉ st.runningTasks)
    (ht : st.task taskId = some t) :
    cancelTask taskId st = (st, false) ∧
    (failTask taskId m st).task taskId =
      some { t with status := .failed, errorMessage := some m,
                    completedAt := some st.clock } ∧
    (completeTask taskId content usage costUsd st).task taskId =
      some { t with status := .completed, progress := 1,
                    progressMessage := some "Research complete",
                    completedAt := some st.clock,
                    lastStreamedContent := some content,
                    usageStats := usage, totalCostUsd := costUsd } :=
  ⟨cancelTask_not_running st taskId hrun,
   failTask_task_self st taskId m t ht,
   completeTask_task_self st taskId content usage costUsd t ht⟩

/-- C1: witness for the amended theorem at a concrete terminal state. -/
theorem terminal_task_second_calls_witness :
    cancelTask "t1" exTerminalState = (exTerminalState, false) :=
  (terminal_task_second_calls exTerminalState "t1" "boom" "c" none none
    exCompletedTask (by decide) (by decide)).1

/-! ## Claim C2 -/

/-- C2: counterexample. The claim says start_task checks running-registry
membership and a second call changes nothing. On the code there is no such
check: starting an already-running task spawns a second runner and replaces
the live queue. -/
theorem double_start_counterexample :
    "t1" ∈ exRunningState.runningTasks ∧
    (startTask "t1" exRunningState).spawned = ["t1", "t1"] ∧
    lookupA exRunningState.streamRegistry "t1" = some 0 ∧
    lookupA (startTask "t1" exRunningState).streamRegistry "t1" = some 1 ∧
    startTask "t1" exRunningState ≠ exRunningState := by
  decide

/-- C2: amended. start_task never checks the running-task registry: every
call, including a call on an already-started task, appends one spawned
runner, keeps or inserts the running-registry entry, and installs a fresh
empty queue under a new queue id, replacing any previously registered one. -/
theorem start_task_unconditional_spawn (st : ManagerState) (taskId : String)
    (hq : ∀ p ∈ st.queues, p.1 < st.nextQueueId) :
    (startTask taskId st).spawned = st.spawned ++ [taskId] ∧
    taskId ∈ (startTask taskId st).runningTasks ∧
    lookupA (startTask taskId st).streamRegistry taskId = some st.nextQueueId ∧
    (startTask taskId st).queue st.nextQueueId = some [] ∧
    (startTask taskId st).nextQueueId = st.nextQueueId + 1 := by
  unfold startTask freshQueue
  by_cases hmem : taskId ∈ st.runningTasks
  · simp [hmem, ManagerState.queue, lookupA_putA_self, lookupQ_append,
          lookupQ_eq_none_of_lt st.queues st.nextQueueId hq, lookupQ]
  · simp [hmem, ManagerState.queue, lookupA_putA_self, lookupQ_append,
          lookupQ_eq_none_of_lt st.queues st.nextQueueId hq, lookupQ]

/-- C2: witness for the amended theorem at a concrete running state. -/
theorem start_task_unconditional_spawn_witness :
    (startTask "t1" exRunningState).spawned = ["t1", "t1"] ∧
    "t1" ∈ (startTask "t1" exRunningState).runningTasks ∧
    lookupA (startTask "t1" exRunningState).streamRegistry "t1" = some 1 ∧
    (startTask "t1" exRunningState).queue 1 = some [] ∧
    (startTask "t1" exRunningState).nextQueueId = 2 :=
  start_task_unconditional_spawn exRunningState "t1" (by decide)

/-! ## Claim C3 -/

theorem pushEvent_queues (taskId : String) (ev : QueueEvent) (st : ManagerState)
    (q : Nat) (hq : lookupA st.streamRegistry taskId = some q) :
    lookupQ (pushEvent taskId ev st).queues q =
      (lookupQ st.queues q).map (fun l => l ++ [ev]) := by
  unfold pushEvent
  rw [hq]
  simp [lookupQ_mapAtQ_self]

/-- C3: cancel_task returns true exactly when the task id is in the
running-task registry; in that case the stored row becomes CANCELLED with
completed_at stamped and exactly one done/cancelled event is appended to the
registered live queue; otherwise it returns false and the whole state is
untouched. -/
theorem cancel_task_running_iff (st : ManagerState) (taskId : String)
    (t : TaskRec) (ht : st.task taskId = some t) :
    (taskId ∉ st.runningTasks → cancelTask taskId st = (st, false)) ∧
    (taskId ∈ st.runningTasks →
      (cancelTask taskId st).2 = true ∧
      (cancelTask taskId st).1.task taskId =
        some { t with status := .cancelled, completedAt := some st.clock } ∧
      ∀ q l, lookupA st.streamRegistry taskId = some q → st.queue q = some l →
        (cancelTask taskId st).1.queue q =
          some (l ++ [QueueEvent.done "cancelled"])) := by
  constructor
  · exact cancelTask_not_running st taskId
  · intro hmem
    refine ⟨by simp [cancelTask, hmem], ?_, ?_⟩
    · simp only [cancelTask, if_pos hmem, tick, ManagerState.task, pushEvent_store]
      rw [lookupA_mapAtA_self]
      rw [ManagerState.task] at ht
      rw [ht]
      rfl
    · intro q l hq hl
      rw [ManagerState.queue] at hl
      simp only [cancelTask, if_pos hmem, tick, ManagerState.queue, pushEvent]
      rw [hq]
      simp only [lookupQ_mapAtQ_self, hl]
      rfl

/-- C3: witness at a concrete running state with a live queue. -/
theorem cancel_task_running_iff_witness :
    (cancelTask "t1" exRunningState).2 = true ∧
    (cancelTask "t1" exRunningState).1.task "t1" =
      some { exRunningTask with status := .cancelled, completedAt := some 2 } ∧
    (cancelTask "t1" exRunningState).1.queue 0 =
      some [QueueEvent.done "cancelled"] := by
  have h := (cancel_task_running_iff exRunningState "t1" exRunningTask
    (by decide)).2 (by decide)
  exact ⟨h.1, h.2.1, h.2.2 0 [] (by decide) (by decide)⟩

/-! ## Claim C6 -/

/-- C6: when the stream endpoint is called on a task already in a terminal
status, the response replays the last stored content snapshot when that
snapshot is non-empty, then emits exactly one done event carrying the stored
status string and error message, and the orchestrator state is returned
untouched: no live queue is created, registered or subscribed to. -/
theorem stream_terminal_replay (st : ManagerState) (taskId : String)
    (t : TaskRec) (ht : st.task taskId = some t)
    (hterm : t.status.isTerminal = true) :
    streamTaskUpdates taskId st =
      (.terminalReplay ((match t.lastStreamedContent with
          | some c => if c ≠ "" then [SSE.content c] else []
          | none => []) ++ [SSE.doneReplay t.status.value t.errorMessage]), st) := by
  unfold streamTaskUpdates
  rw [ManagerState.task] at ht
  rw [ht]
  simp [hterm]

/-- C6: witness at a concrete terminal state with a non-empty snapshot. -/
theorem stream_terminal_replay_witness :
    streamTaskUpdates "t1" exTerminalState =
      (.terminalReplay [SSE.content "report", SSE.doneReplay "completed" none],
       exTerminalState) :=
  stream_terminal_replay exTerminalState "t1" exCompletedTask (by decide) (by decide)

theorem updateTaskProgress_task_self (st : ManagerState) (taskId : String)
    (p : ℚ) (m : Option String) (t : TaskRec) (ht : st.task taskId = some t) :
    (updateTaskProgress taskId p m st).task taskId =
      some { t with progress := p, progressMessage := m,
                    updatedAt := st.clock } := by
  simp only [updateTaskProgress, tick, ManagerState.task, pushEvent_store]
  rw [lookupA_mapAtA_self]
  rw [ManagerState.task] at ht
  rw [ht]
  rfl

theorem updateTaskProgress_streamRegistry (st : ManagerState) (taskId : String)
    (p : ℚ) (m : Option String) :
    (updateTaskProgress taskId p m st).streamRegistry = st.streamRegistry := by
  simp only [updateTaskProgress, tick, pushEvent_streamRegistry]

theorem updateTaskProgress_clock (st : ManagerState) (taskId : String)
    (p : ℚ) (m : Option String) :
    (updateTaskProgress taskId p m st).clock = st.clock + 1 := by
  simp only [updateTaskProgress, tick, pushEvent_clock]

theorem updateTaskProgress_queues (st : ManagerState) (taskId : String)
    (p : ℚ) (m : Option String) (q : Nat)
    (hq : lookupA st.streamRegistry taskId = some q) :
    lookupQ (updateTaskProgress taskId p m st).queues q =
      (lookupQ st.queues q).map (fun l => l ++ [QueueEvent.progress p m]) := by
  simp only [updateTaskProgress, tick, pushEvent]
  rw [hq]
  simp [lookupQ_mapAtQ_self]

theorem updateTaskContent_task_self (st : ManagerState) (taskId content : String)
    (t : TaskRec) (ht : st.task taskId = some t) :
    (updateTaskContent taskId content st).task taskId =
      some { t with lastStreamedContent := some content,
                    updatedAt := st.clock } := by
  simp only [updateTaskContent, tick, ManagerState.task]
  rw [lookupA_mapAtA_self]
  rw [ManagerState.task] at ht
  rw [ht]
  rfl

theorem updateTaskContent_streamRegistry (st : ManagerState)
    (taskId content : String) :
    (updateTaskContent taskId content st).streamRegistry = st.streamRegistry := rfl

theorem updateTaskContent_queues (st : ManagerState) (taskId content : String) :
    (updateTaskContent taskId content st).queues = st.queues := rfl

theorem updateTaskContent_clock (st : ManagerState) (taskId content : String) :
    (updateTaskContent taskId content st).clock = st.clock + 1 := rfl

theorem scanOutputFiles_store (taskId sessionId : String) (d : List FsFile)
    (st : ManagerState) : (scanOutputFiles taskId sessionId d st).store = st.store := rfl

theorem scanOutputFiles_streamRegistry (taskId sessionId : String)
    (d : List FsFile) (st : ManagerState) :
    (scanOutputFiles taskId sessionId d st).streamRegistry = st.streamRegistry := rfl

theorem scanOutputFiles_queues (taskId sessionId : String) (d : List FsFile)
    (st : ManagerState) : (scanOutputFiles taskId sessionId d st).queues = st.queues := rfl

theorem scanOutputFiles_clock (taskId sessionId : String) (d : List FsFile)
    (st : ManagerState) : (scanOutputFiles taskId sessionId d st).clock = st.clock := rfl

theorem completeTask_clock (st : ManagerState) (taskId content : String)
    (usage : Option Usage) (costUsd : Option ℚ) :
    (completeTask taskId content usage costUsd st).clock = st.clock + 1 := by
  simp only [completeTask, tick, pushEvent_clock]

theorem failTask_clock (st : ManagerState) (taskId m : String) :
    (failTask taskId m st).clock = st.clock + 1 := by
  simp only [failTask, tick, pushEvent_clock]

theorem failTask_queues (st : ManagerState) (taskId m : String) (q : Nat)
    (hq : lookupA st.streamRegistry taskId = some q) :
    lookupQ (failTask taskId m st).queues q =
      (lookupQ st.queues q).map (fun l => l ++ [QueueEvent.error m]) := by
  simp only [failTask, tick, pushEvent]
  rw [hq]
  simp [lookupQ_mapAtQ_self]

theorem runFold_nil (taskId sessionId : String) (d : List FsFile)
    (rs : RunnerAcc) : runFold taskId sessionId d [] rs = rs := rfl

theorem runFold_cons (taskId sessionId : String) (d : List FsFile)
    (e : WorkerEvent) (evs : List WorkerEvent) (rs : RunnerAcc) :
    runFold taskId sessionId d (e :: evs) rs =
      runFold taskId sessionId d evs (runnerStep taskId sessionId d rs e) := rfl
theorem runnerStep_token (taskId sessionId : String) (d : List FsFile)
    (rs : RunnerAcc) (text : String) :
    runnerStep taskId sessionId d rs (.token text) =
      { rs with accumulated := rs.accumulated ++ text,
                mgr := if (rs.accumulated ++ text).length % 1000 < text.length
                  then updateTaskContent taskId (rs.accumulated ++ text) rs.mgr
                  else rs.mgr } := rfl

theorem runnerStep_toolUse (taskId sessionId : String) (d : List FsFile)
    (rs : RunnerAcc) (name : String) :
    runnerStep taskId sessionId d rs (.toolUse name) =
      { rs with toolCount := rs.toolCount + 1,
                mgr := updateTaskProgress taskId
                  (min (9/10 : ℚ) (((rs.toolCount + 1 : ℕ) : ℚ) * (1/10)))
                  (some ("Using " ++ name ++ "...")) rs.mgr } := rfl

theorem runnerStep_done (taskId sessionId : String) (d : List FsFile)
    (rs : RunnerAcc) (usage : Option Usage) (costUsd : Option ℚ) :
    runnerStep taskId sessionId d rs (.done usage costUsd) =
      { rs with mgr := completeTask taskId rs.accumulated usage costUsd
                  (scanOutputFiles taskId sessionId d rs.mgr) } := rfl

theorem runnerStep_error (taskId sessionId : String) (d : List FsFile)
    (rs : RunnerAcc) (message : Option String) :
    runnerStep taskId sessionId d rs (.error message) =
      { rs with mgr := failTask taskId (message.getD "Unknown error") rs.mgr } := rfl

theorem runnerStep_other (taskId sessionId : String) (d : List FsFile)
    (rs : RunnerAcc) :
    runnerStep taskId sessionId d rs .other = rs := rfl

/-- Invariant of the runner loop over a terminal-free stretch of the worker
stream: the tool counter advances by the number of tool_use events, the
stream registry is untouched, the clock only moves forward, the stored task
keeps its status, timestamps and error message while its progress tracks the
capped tool-count formula, and the registered live queue receives exactly the
tool-progress trace. -/
theorem runFold_free (taskId sessionId : String) (d : List FsFile)
    (evs : List WorkerEvent) (hfree : terminalFree evs = true)
    (rs : RunnerAcc) (t : TaskRec) (ht : rs.mgr.task taskId = some t) :
    (runFold taskId sessionId d evs rs).toolCount
        = rs.toolCount + (toolNames evs).length ∧
    (runFold taskId sessionId d evs rs).mgr.streamRegistry
        = rs.mgr.streamRegistry ∧
    rs.mgr.clock ≤ (runFold taskId sessionId d evs rs).mgr.clock ∧
    (∃ t', (runFold taskId sessionId d evs rs).mgr.task taskId = some t' ∧
        t'.status = t.status ∧ t'.startedAt = t.startedAt ∧
        t'.completedAt = t.completedAt ∧ t'.errorMessage = t.errorMessage ∧
        t'.progress = (if (toolNames evs).length = 0 then t.progress
          else min (9/10 : ℚ)
            (((rs.toolCount + (toolNames evs).length : ℕ) : ℚ) * (1/10)))) ∧
    (∀ q l, lookupA rs.mgr.streamRegistry taskId = some q →
        lookupQ rs.mgr.queues q = some l →
        lookupQ (runFold taskId sessionId d evs rs).mgr.queues q =
          some (l ++ toolProgressTrace rs.toolCount (toolNames evs))) := by
  induction evs generalizing rs t with
  | nil =>
      refine ⟨by simp [runFold_nil, toolNames], rfl, le_refl _,
        ⟨t, ht, rfl, rfl, rfl, rfl, by simp [toolNames]⟩, ?_⟩
      intro q l hq hl
      rw [runFold_nil]
      simpa [toolNames, toolProgressTrace] using hl
  | cons ev rest ih =>
      have hand : ev.isTerminal = false ∧ terminalFree rest = true := by
        simp only [terminalFree, List.all_cons, Bool.and_eq_true,
          Bool.not_eq_true'] at hfree
        exact ⟨hfree.1, hfree.2⟩
      obtain ⟨hterm, hrest⟩ := hand
      cases ev with
      | done usage costUsd => simp [WorkerEvent.isTerminal] at hterm
      | error m => simp [WorkerEvent.isTerminal] at hterm
      | other =>
          rw [runFold_cons, runnerStep_other]
          simpa only [toolNames] using ih hrest rs t ht
      | token text =>
          rw [runFold_cons, runnerStep_token]
          by_cases hc : (rs.accumulated ++ text).length % 1000 < text.length
          · rw [if_pos hc]
            have ht1 := updateTaskContent_task_self rs.mgr taskId
              (rs.accumulated ++ text) t ht
            obtain ⟨k1, k2, k3, ⟨t', ht', hs', hst', hco', he', hp'⟩, k5⟩ :=
              ih hrest { rs with accumulated := rs.accumulated ++ text,
                                 mgr := updateTaskContent taskId
                                   (rs.accumulated ++ text) rs.mgr } _ ht1
            simp only [toolNames]
            have hclk : rs.mgr.clock ≤
                (updateTaskContent taskId (rs.accumulated ++ text) rs.mgr).clock := by
              rw [updateTaskContent_clock]
              exact Nat.le_succ _
            exact ⟨k1, k2.trans (updateTaskContent_streamRegistry rs.mgr taskId
                (rs.accumulated ++ text)),
              le_trans hclk k3,
              ⟨t', ht', hs', hst', hco', he', hp'⟩,
              fun q l hq hl => k5 q l hq hl⟩
          · rw [if_neg hc]
            obtain ⟨k1, k2, k3, ⟨t', ht', hs', hst', hco', he', hp'⟩, k5⟩ :=
              ih hrest { rs with accumulated := rs.accumulated ++ text,
                                 mgr := rs.mgr } t ht
            simp only [toolNames]
            exact ⟨k1, k2, k3, ⟨t', ht', hs', hst', hco', he', hp'⟩,
              fun q l hq hl => k5 q l hq hl⟩
      | toolUse name =>
          rw [runFold_cons, runnerStep_toolUse]
          have ht1 := updateTaskProgress_task_self rs.mgr taskId
            (min (9/10 : ℚ) (((rs.toolCount + 1 : ℕ) : ℚ) * (1/10)))
            (some ("Using " ++ name ++ "...")) t ht
          obtain ⟨k1, k2, k3, ⟨t', ht', hs', hst', hco', he', hp'⟩, k5⟩ :=
            ih hrest { rs with toolCount := rs.toolCount + 1,
                               mgr := updateTaskProgress taskId
                                 (min (9/10 : ℚ) (((rs.toolCount + 1 : ℕ) : ℚ) * (1/10)))
                                 (some ("Using " ++ name ++ "...")) rs.mgr } _ ht1
          simp only [toolNames, List.length_cons]
          simp only at k1 k2 k3 hp' ⊢
          refine ⟨?_, ?_, ?_, ⟨t', ht', hs', hst', hco', he', ?_⟩, ?_⟩
          · rw [k1]
            omega
          · exact k2.trans (updateTaskProgress_streamRegistry rs.mgr taskId
              (min (9/10 : ℚ) (((rs.toolCount + 1 : ℕ) : ℚ) * (1/10)))
              (some ("Using " ++ name ++ "...")))
          · have hclk : rs.mgr.clock ≤ (updateTaskProgress taskId
                (min (9/10 : ℚ) (((rs.toolCount + 1 : ℕ) : ℚ) * (1/10)))
                (some ("Using " ++ name ++ "...")) rs.mgr).clock := by
              rw [updateTaskProgress_clock]
              exact Nat.le_succ _
            exact le_trans hclk k3
          · rw [if_neg (by omega : ¬((toolNames rest).length + 1 = 0))]
            by_cases h0 : (toolNames rest).length = 0
            · rw [if_pos h0] at hp'
              rw [h0]
              simpa using hp'
            · rw [if_neg h0] at hp'
              have harith : rs.toolCount + 1 + (toolNames rest).length =
                  rs.toolCount + ((toolNames rest).length + 1) := by omega
              rw [harith] at hp'
              exact hp'
          · intro q l hq hl
            have hq1 : lookupA (updateTaskProgress taskId
                (min (9/10 : ℚ) (((rs.toolCount + 1 : ℕ) : ℚ) * (1/10)))
                (some ("Using " ++ name ++ "...")) rs.mgr).streamRegistry taskId
                = some q := by
              rw [updateTaskProgress_streamRegistry]
              exact hq
            have hl1 : lookupQ (updateTaskProgress taskId
                (min (9/10 : ℚ) (((rs.toolCount + 1 : ℕ) : ℚ) * (1/10)))
                (some ("Using " ++ name ++ "...")) rs.mgr).queues q
                = some (l ++ [QueueEvent.progress
                    (min (9/10 : ℚ) (((rs.toolCount + 1 : ℕ) : ℚ) * (1/10)))
                    (some ("Using " ++ name ++ "..."))]) := by
              rw [updateTaskProgress_queues rs.mgr taskId
                (min (9/10 : ℚ) (((rs.toolCount + 1 : ℕ) : ℚ) * (1/10)))
                (some ("Using " ++ name ++ "...")) q hq, hl]
              rfl
            have hfin := k5 q _ hq1 hl1
            simp only [toolProgressTrace]
            simpa [List.append_assoc] using hfin

theorem runFold_append (taskId sessionId : String) (d : List FsFile)
    (l₁ l₂ : List WorkerEvent) (rs : RunnerAcc) :
    runFold taskId sessionId d (l₁ ++ l₂) rs =
      runFold taskId sessionId d l₂ (runFold taskId sessionId d l₁ rs) := by
  simp [runFold, List.foldl_append]

/-- Unfold run_research_task on a present task into the started state plus
the event fold. -/
theorem runResearchTask_eq (taskId : String) (evs : List WorkerEvent)
    (d : List FsFile) (st : ManagerState) (task : TaskRec)
    (ht : st.task taskId = some task) :
    runResearchTask taskId evs d st =
      (runFold taskId task.sessionId d evs
        { accumulated := "", toolCount := 0,
          mgr := { st with
            store := mapAtA st.store taskId (fun t =>
              { t with status := .running, startedAt := some st.clock,
                       progress := 0,
                       progressMessage := some "Starting research..." }),
            clock := st.clock + 1 } }).mgr := by
  unfold runResearchTask
  rw [ManagerState.task] at ht
  rw [ht]
  rfl

/-- The stored view of the task right after the runner marks it RUNNING. -/
theorem runStart_task_self (st : ManagerState) (taskId : String)
    (task : TaskRec) (ht : st.task taskId = some task) :
    ({ st with
        store := mapAtA st.store taskId (fun t =>
          { t with status := .running, startedAt := some st.clock,
                   progress := 0,
                   progressMessage := some "Starting research..." }),
        clock := st.clock + 1 } : ManagerState).task taskId =
      some { task with status := .running, startedAt := some st.clock,
                       progress := 0,
                       progressMessage := some "Starting research..." } := by
  show lookupA (mapAtA st.store taskId _) taskId = _
  rw [lookupA_mapAtA_self]
  rw [ManagerState.task] at ht
  rw [ht]
  rfl

theorem toolProgressTrace_eq_enumFrom (tc : Nat) (names : List String) :
    toolProgressTrace tc names = (List.enumFrom tc names).map (fun p =>
      QueueEvent.progress (min (9/10 : ℚ) (((p.1 + 1 : ℕ) : ℚ) * (1/10)))
        (some ("Using " ++ p.2 ++ "..."))) := by
  induction names generalizing tc with
  | nil => rfl
  | cons name rest ih => simp [toolProgressTrace, List.enumFrom, ih]

theorem progressValues_trace_le (tc : Nat) (names : List String) :
    ∀ v ∈ progressValues (toolProgressTrace tc names), v ≤ 9/10 := by
  induction names generalizing tc with
  | nil => simp [toolProgressTrace, progressValues]
  | cons name rest ih =>
      intro v hv
      simp only [toolProgressTrace, progressValues, List.mem_cons] at hv
      rcases hv with rfl | hv
      · exact min_le_left _ _
      · exact ih (tc + 1) v hv

theorem progressValues_trace_chain (tc : Nat) (names : List String) :
    List.Chain' (· ≤ ·) (progressValues (toolProgressTrace tc names)) := by
  induction names generalizing tc with
  | nil => simp [toolProgressTrace, progressValues]
  | cons name rest ih =>
      cases rest with
      | nil => simp [toolProgressTrace, progressValues]
      | cons name₂ rest₂ =>
          have hstep : min (9/10 : ℚ) (((tc + 1 : ℕ) : ℚ) * (1/10)) ≤
              min (9/10 : ℚ) (((tc + 1 + 1 : ℕ) : ℚ) * (1/10)) := by
            refine min_le_min (le_refl _) ?_
            have hc : ((tc + 1 : ℕ) : ℚ) ≤ ((tc + 1 + 1 : ℕ) : ℚ) := by
              exact_mod_cast Nat.le_succ (tc + 1)
            have hpos : (0 : ℚ) ≤ 1/10 := by norm_num
            exact mul_le_mul_of_nonneg_right hc hpos
          have htail := ih (tc + 1)
          simp only [toolProgressTrace, progressValues] at htail ⊢
          exact List.Chain'.cons hstep htail

/-- C4: over a terminal-free worker stream, the n-th tool_use event pushes a
progress event carrying exactly min(0.9, n * 0.1) with message
"Using tool...", the stored progress after the run is the same capped value
(0 when no tool was used), and the pushed progress sequence is monotonically
non-decreasing and never exceeds 0.9. -/
theorem runner_tool_progress (st : ManagerState) (taskId : String)
    (task : TaskRec) (evs : List WorkerEvent) (d : List FsFile) (q : Nat)
    (l : List QueueEvent)
    (ht : st.task taskId = some task)
    (hfree : terminalFree evs = true)
    (hq : lookupA st.streamRegistry taskId = some q)
    (hl : st.queue q = some l) :
    (runResearchTask taskId evs d st).queue q =
      some (l ++ (toolNames evs).enum.map (fun p =>
        QueueEvent.progress (min (9/10 : ℚ) (((p.1 + 1 : ℕ) : ℚ) * (1/10)))
          (some ("Using " ++ p.2 ++ "...")))) ∧
    (∃ t', (runResearchTask taskId evs d st).task taskId = some t' ∧
        t'.progress = (if (toolNames evs).length = 0 then 0
          else min (9/10 : ℚ) ((((toolNames evs).length : ℕ) : ℚ) * (1/10))) ∧
        t'.progress ≤ 9/10) ∧
    List.Chain' (· ≤ ·) (progressValues ((toolNames evs).enum.map (fun p =>
        QueueEvent.progress (min (9/10 : ℚ) (((p.1 + 1 : ℕ) : ℚ) * (1/10)))
          (some ("Using " ++ p.2 ++ "..."))))) ∧
    (∀ v ∈ progressValues ((toolNames evs).enum.map (fun p =>
        QueueEvent.progress (min (9/10 : ℚ) (((p.1 + 1 : ℕ) : ℚ) * (1/10)))
          (some ("Using " ++ p.2 ++ "...")))), v ≤ 9/10) := by
  rw [runResearchTask_eq taskId evs d st task ht]
  have ht1 := runStart_task_self st taskId task ht
  obtain ⟨k1, k2, k3, ⟨t', ht', hs', hst', hco', he', hp'⟩, k5⟩ :=
    runFold_free taskId task.sessionId d evs hfree
      { accumulated := "", toolCount := 0,
        mgr := { st with
          store := mapAtA st.store taskId (fun t =>
            { t with status := .running, startedAt := some st.clock,
                     progress := 0,
                     progressMessage := some "Starting research..." }),
          clock := st.clock + 1 } } _ ht1
  have henum : toolProgressTrace 0 (toolNames evs) =
      (toolNames evs).enum.map (fun p =>
        QueueEvent.progress (min (9/10 : ℚ) (((p.1 + 1 : ℕ) : ℚ) * (1/10)))
          (some ("Using " ++ p.2 ++ "..."))) :=
    toolProgressTrace_eq_enumFrom 0 (toolNames evs)
  refine ⟨?_, ⟨t', ht', ?_, ?_⟩, ?_, ?_⟩
  · rw [ManagerState.queue] at hl ⊢
    have := k5 q l hq hl
    simp only at this
    rw [henum] at this
    exact this
  · simp only at hp'
    simp only [Nat.zero_add] at hp'
    exact hp'
  · simp only at hp'
    rw [hp']
    by_cases h0 : (toolNames evs).length = 0
    · rw [if_pos h0]
      norm_num
    · rw [if_neg h0]
      simp only [Nat.zero_add]
      exact min_le_left _ _
  · rw [← henum]
    exact progressValues_trace_chain 0 (toolNames evs)
  · rw [← henum]
    exact progressValues_trace_le 0 (toolNames evs)

/-- C4: witness — two search tool_use events on a live queue push exactly
the progress pair 0.1, 0.2. -/
theorem runner_tool_progress_witness :
    (runResearchTask "t1"
        [WorkerEvent.toolUse "search", WorkerEvent.toolUse "search"] []
        exRunningState).queue 0 =
      some ([] ++ (toolNames
          [WorkerEvent.toolUse "search", WorkerEvent.toolUse "search"]).enum.map
        (fun p => QueueEvent.progress
          (min (9/10 : ℚ) (((p.1 + 1 : ℕ) : ℚ) * (1/10)))
          (some ("Using " ++ p.2 ++ "...")))) :=
  (runner_tool_progress exRunningState "t1" exRunningTask
    [WorkerEvent.toolUse "search", WorkerEvent.toolUse "search"] [] 0 []
    (by decide) (by decide) (by decide) (by decide)).1

/-! ## Terminal steps of the runner -/

theorem streamWF_decomp (evs : List WorkerEvent) (h : streamWF evs = true) :
    terminalFree evs = true ∨
      ∃ body e, evs = body ++ [e] ∧ terminalFree body = true ∧
        e.isTerminal = true := by
  induction evs with
  | nil => left; rfl
  | cons ev rest ih =>
      by_cases hterm : ev.isTerminal = true
      · right
        have hrest : rest = [] := by
          simp only [streamWF, if_pos hterm] at h
          cases rest with
          | nil => rfl
          | cons a as => simp [List.isEmpty] at h
        subst hrest
        exact ⟨[], ev, rfl, rfl, hterm⟩
      · have hf : ev.isTerminal = false := by
          cases hb : ev.isTerminal
          · rfl
          · exact absurd hb hterm
        have h' : streamWF rest = true := by
          simpa [streamWF, hf] using h
        rcases ih h' with hfree | ⟨body, e, heq, hbfree, heterm⟩
        · left
          simp only [terminalFree, List.all_cons, Bool.and_eq_true,
            Bool.not_eq_true']
          exact ⟨hf, hfree⟩
        · right
          refine ⟨ev :: body, e, by rw [heq]; rfl, ?_, heterm⟩
          simp only [terminalFree, List.all_cons, Bool.and_eq_true,
            Bool.not_eq_true']
          exact ⟨hf, hbfree⟩

/-- After a runner run over a terminal-free stream, the task is still
RUNNING. -/
theorem runner_free_final (st : ManagerState) (taskId : String) (task : TaskRec)
    (evs : List WorkerEvent) (d : List FsFile)
    (ht : st.task taskId = some task) (hfree : terminalFree evs = true) :
    ∃ t', (runResearchTask taskId evs d st).task taskId = some t' ∧
      t'.status = .running := by
  rw [runResearchTask_eq taskId evs d st task ht]
  have ht1 := runStart_task_self st taskId task ht
  obtain ⟨_, _, _, ⟨t', ht', hs', _, _, _, _⟩, _⟩ :=
    runFold_free taskId task.sessionId d evs hfree
      { accumulated := "", toolCount := 0,
        mgr := { st with
          store := mapAtA st.store taskId (fun t =>
            { t with status := .running, startedAt := some st.clock,
                     progress := 0,
                     progressMessage := some "Starting research..." }),
          clock := st.clock + 1 } } _ ht1
  exact ⟨t', ht', hs'⟩

/-- A terminal-success event completes the task: progress 1, completed_at
stamped no earlier than the start timestamp. -/
theorem runner_done_final (st : ManagerState) (taskId : String) (task : TaskRec)
    (body : List WorkerEvent) (usage : Option Usage) (costUsd : Option ℚ)
    (d : List FsFile) (ht : st.task taskId = some task)
    (hbfree : terminalFree body = true) :
    ∃ t', (runResearchTask taskId (body ++ [.done usage costUsd]) d st).task
        taskId = some t' ∧
      t'.status = .completed ∧ t'.progress = 1 ∧
      t'.startedAt = some st.clock ∧
      ∃ c, t'.completedAt = some c ∧ st.clock ≤ c := by
  rw [runResearchTask_eq taskId _ d st task ht, runFold_append,
    runFold_cons, runFold_nil, runnerStep_done]
  have ht1 := runStart_task_self st taskId task ht
  obtain ⟨k1, k2, k3, ⟨t'', ht'', hs'', hst'', hco'', he'', hp''⟩, k5⟩ :=
    runFold_free taskId task.sessionId d body hbfree
      { accumulated := "", toolCount := 0,
        mgr := { st with
          store := mapAtA st.store taskId (fun t =>
            { t with status := .running, startedAt := some st.clock,
                     progress := 0,
                     progressMessage := some "Starting research..." }),
          clock := st.clock + 1 } } _ ht1
  have htScan : (scanOutputFiles taskId task.sessionId d
      (runFold taskId task.sessionId d body
        { accumulated := "", toolCount := 0,
          mgr := { st with
            store := mapAtA st.store taskId (fun t =>
              { t with status := .running, startedAt := some st.clock,
                       progress := 0,
                       progressMessage := some "Starting research..." }),
            clock := st.clock + 1 } }).mgr).task taskId = some t'' := ht''
  have hview := completeTask_task_self _ taskId
    (runFold taskId task.sessionId d body
      { accumulated := "", toolCount := 0,
        mgr := { st with
          store := mapAtA st.store taskId (fun t =>
            { t with status := .running, startedAt := some st.clock,
                     progress := 0,
                     progressMessage := some "Starting research..." }),
          clock := st.clock + 1 } }).accumulated usage costUsd t'' htScan
  refine ⟨_, hview, rfl, rfl, hst'', _, rfl, ?_⟩
  show st.clock ≤ (runFold taskId task.sessionId d body
      { accumulated := "", toolCount := 0,
        mgr := { st with
          store := mapAtA st.store taskId (fun t =>
            { t with status := .running, startedAt := some st.clock,
                     progress := 0,
                     progressMessage := some "Starting research..." }),
          clock := st.clock + 1 } }).mgr.clock
  have hk : st.clock + 1 ≤ (runFold taskId task.sessionId d body
      { accumulated := "", toolCount := 0,
        mgr := { st with
          store := mapAtA st.store taskId (fun t =>
            { t with status := .running, startedAt := some st.clock,
                     progress := 0,
                     progressMessage := some "Starting research..." }),
          clock := st.clock + 1 } }).mgr.clock := k3
  omega

/-- A terminal-error event fails the task with the carried message (or the
Unknown-error default when the event has none) and stamps completed_at. -/
theorem runner_error_final (st : ManagerState) (taskId : String)
    (task : TaskRec) (body : List WorkerEvent) (message : Option String)
    (d : List FsFile) (ht : st.task taskId = some task)
    (hbfree : terminalFree body = true) :
    ∃ t', (runResearchTask taskId (body ++ [.error message]) d st).task taskId
        = some t' ∧
      t'.status = .failed ∧
      t'.errorMessage = some (message.getD "Unknown error") ∧
      ∃ c, t'.completedAt = some c := by
  rw [runResearchTask_eq taskId _ d st task ht, runFold_append,
    runFold_cons, runFold_nil, runnerStep_error]
  have ht1 := runStart_task_self st taskId task ht
  obtain ⟨k1, k2, k3, ⟨t'', ht'', hs'', hst'', hco'', he'', hp''⟩, k5⟩ :=
    runFold_free taskId task.sessionId d body hbfree
      { accumulated := "", toolCount := 0,
        mgr := { st with
          store := mapAtA st.store taskId (fun t =>
            { t with status := .running, startedAt := some st.clock,
                     progress := 0,
                     progressMessage := some "Starting research..." }),
          clock := st.clock + 1 } } _ ht1
  have hview := failTask_task_self _ taskId (message.getD "Unknown error") t'' ht''
  exact ⟨_, hview, rfl, rfl, _, rfl⟩

/-! ## Claim C5 -/

/-- C5: for every task whose status is COMPLETED after a runner run over a
well-formed worker stream, the stored progress is exactly 1.0 and
completed_at is stamped and is at least started_at. -/
theorem completed_task_fields (st : ManagerState) (taskId : String)
    (task : TaskRec) (evs : List WorkerEvent) (d : List FsFile)
    (ht : st.task taskId = some task) (hwf : streamWF evs = true) :
    ∀ t', (runResearchTask taskId evs d st).task taskId = some t' →
      t'.status = .completed →
      t'.progress = 1 ∧ ∃ s c, t'.startedAt = some s ∧ t'.completedAt = some c ∧
        s ≤ c := by
  intro t' htf hstat
  rcases streamWF_decomp evs hwf with hfree | ⟨body, e, heq, hbfree, heterm⟩
  · obtain ⟨t'', ht'', hs''⟩ := runner_free_final st taskId task evs d ht hfree
    rw [ht''] at htf
    have hte := Option.some.inj htf
    subst hte
    exact absurd (hs''.symm.trans hstat) (by decide)
  · subst heq
    cases e with
    | token text => simp [WorkerEvent.isTerminal] at heterm
    | toolUse name => simp [WorkerEvent.isTerminal] at heterm
    | other => simp [WorkerEvent.isTerminal] at heterm
    | error message =>
        obtain ⟨t'', ht'', hs'', _, _, _⟩ :=
          runner_error_final st taskId task body message d ht hbfree
        rw [ht''] at htf
        have hte := Option.some.inj htf
        subst hte
        exact absurd (hs''.symm.trans hstat) (by decide)
    | done usage costUsd =>
        obtain ⟨t'', ht'', _, hp'', hsa'', c, hc'', hle''⟩ :=
          runner_done_final st taskId task body usage costUsd d ht hbfree
        rw [ht''] at htf
        have hte := Option.some.inj htf
        subst hte
        exact ⟨hp'', st.clock, c, hsa'', hc'', hle''⟩

/-- C5: witness — a concrete done-terminated run yields progress 1. -/
theorem completed_task_fields_witness :
    ((runResearchTask "t1" [WorkerEvent.done none none] []
        exRunningState).task "t1").map TaskRec.progress = some 1 := by
  have h := completed_task_fields exRunningState "t1" exRunningTask
    [WorkerEvent.done none none] [] (by decide) (by decide)
  cases hx : (runResearchTask "t1" [WorkerEvent.done none none] []
      exRunningState).task "t1" with
  | none =>
      have hsome : ((runResearchTask "t1" [WorkerEvent.done none none] []
          exRunningState).task "t1").isSome = true := by decide
      rw [hx] at hsome
      simp at hsome
  | some t' =>
      have hst : t'.status = TaskStatus.completed := by
        have h2 : ((runResearchTask "t1" [WorkerEvent.done none none] []
            exRunningState).task "t1").map TaskRec.status =
            some TaskStatus.completed := by decide
        rw [hx] at h2
        simpa using h2
      obtain ⟨hp, _⟩ := h t' hx hst
      simpa using hp

/-! ## Claim C8 -/

/-- C8: an error worker event makes the runner mark the task FAILED with
error_message equal, character for character, to the carried message, and
push one terminal error queue event carrying the same message to the
registered live queue. -/
theorem runner_error_verbatim (st : ManagerState) (taskId : String)
    (task : TaskRec) (body : List WorkerEvent) (m : String) (d : List FsFile)
    (ht : st.task taskId = some task) (hbfree : terminalFree body = true) :
    (∃ t', (runResearchTask taskId (body ++ [.error (some m)]) d st).task
        taskId = some t' ∧ t'.status = .failed ∧ t'.errorMessage = some m) ∧
    (∀ q l, lookupA st.streamRegistry taskId = some q → st.queue q = some l →
      ∃ tr, (runResearchTask taskId (body ++ [.error (some m)]) d st).queue q =
        some (l ++ tr ++ [QueueEvent.error m])) := by
  constructor
  · obtain ⟨t', ht', hs', he', hc'⟩ :=
      runner_error_final st taskId task body (some m) d ht hbfree
    exact ⟨t', ht', hs', he'⟩
  · intro q l hq hl
    rw [ManagerState.queue] at hl
    rw [runResearchTask_eq taskId _ d st task ht, runFold_append,
      runFold_cons, runFold_nil, runnerStep_error]
    have ht1 := runStart_task_self st taskId task ht
    obtain ⟨k1, k2, k3, ⟨t'', ht'', hs'', hst'', hco'', he'', hp''⟩, k5⟩ :=
      runFold_free taskId task.sessionId d body hbfree
        { accumulated := "", toolCount := 0,
          mgr := { st with
            store := mapAtA st.store taskId (fun t =>
              { t with status := .running, startedAt := some st.clock,
                       progress := 0,
                       progressMessage := some "Starting research..." }),
            clock := st.clock + 1 } } _ ht1
    have hqB := k5 q l hq hl
    have hregB : lookupA (runFold taskId task.sessionId d body
        { accumulated := "", toolCount := 0,
          mgr := { st with
            store := mapAtA st.store taskId (fun t =>
              { t with status := .running, startedAt := some st.clock,
                       progress := 0,
                       progressMessage := some "Starting research..." }),
            clock := st.clock + 1 } }).mgr.streamRegistry taskId = some q := by
      rw [k2]
      exact hq
    have hfq := failTask_queues (runFold taskId task.sessionId d body
        { accumulated := "", toolCount := 0,
          mgr := { st with
            store := mapAtA st.store taskId (fun t =>
              { t with status := .running, startedAt := some st.clock,
                       progress := 0,
                       progressMessage := some "Starting research..." }),
            clock := st.clock + 1 } }).mgr taskId
      ((some m).getD "Unknown error") q hregB
    refine ⟨toolProgressTrace 0 (toolNames body), ?_⟩
    rw [ManagerState.queue]
    show lookupQ (failTask taskId ((some m).getD "Unknown error")
        (runFold taskId task.sessionId d body
          { accumulated := "", toolCount := 0,
            mgr := { st with
              store := mapAtA st.store taskId (fun t =>
                { t with status := .running, startedAt := some st.clock,
                         progress := 0,
                         progressMessage := some "Starting research..." }),
              clock := st.clock + 1 } }).mgr).queues q = _
    rw [hfq, hqB]
    rfl

/-- C8: witness — injecting error(message="rate limited") yields status
FAILED and error_message "rate limited". -/
theorem runner_error_verbatim_witness :
    ((runResearchTask "t1" ([] ++ [WorkerEvent.error (some "rate limited")]) []
        exRunningState).task "t1").map TaskRec.status =
      some TaskStatus.failed ∧
    ((runResearchTask "t1" ([] ++ [WorkerEvent.error (some "rate limited")]) []
        exRunningState).task "t1").map TaskRec.errorMessage =
      some (some "rate limited") := by
  obtain ⟨⟨t', ht', hs', he'⟩, _⟩ := runner_error_verbatim exRunningState "t1"
    exRunningTask [] "rate limited" [] (by decide) (by decide)
  rw [ht']
  simp [hs', he']

/-! ## The Reconciler: scan characterization -/

theorem mem_existingPaths (x sessionId : String) (files : List OutputFileRow) :
    x ∈ existingPaths sessionId files ↔
      ∃ r ∈ files, r.sessionId = sessionId ∧ r.filepath = x := by
  simp only [existingPaths, List.mem_map, List.mem_filter, decide_eq_true_eq]
  constructor
  · rintro ⟨r, ⟨hr, hs⟩, hx⟩
    exact ⟨r, hr, hs, hx⟩
  · rintro ⟨r, hr, hs, hx⟩
    exact ⟨r, ⟨hr, hs⟩, hx⟩

/-- The scan loop appends exactly one row, carrying the scanning task id and
the scanned session id, for each listed file whose relative path is not in
the fixed existing-path set, in listing order. -/
theorem scanLoop_chars (taskId sessionId : String) (existing : List String)
    (dirFiles : List FsFile) (acc : List OutputFileRow) (nextId : Nat) :
    ∃ new, (scanLoop taskId sessionId existing dirFiles acc nextId).1 =
        acc ++ new ∧
      new.map (fun r => (r.filepath, r.taskId)) =
        (dirFiles.filter (fun f => decide (f.relPath ∉ existing))).map
          (fun f => (f.relPath, some taskId)) ∧
      (∀ r ∈ new, r.sessionId = sessionId) := by
  induction dirFiles generalizing acc nextId with
  | nil => exact ⟨[], by simp [scanLoop], rfl, by simp⟩
  | cons f rest ih =>
      by_cases hf : f.relPath ∈ existing
      · simp only [scanLoop, if_pos hf]
        obtain ⟨new, h₁, h₂, h₃⟩ := ih acc nextId
        refine ⟨new, h₁, ?_, h₃⟩
        rw [h₂]
        simp [List.filter_cons, hf]
      · simp only [scanLoop, if_neg hf]
        obtain ⟨new, h₁, h₂, h₃⟩ := ih
          (acc ++ [{ id := nextId, sessionId := sessionId,
                     taskId := some taskId, filename := f.name,
                     filepath := f.relPath, fileType := getFileType f.suffix,
                     fileSize := some f.size }]) (nextId + 1)
        refine ⟨{ id := nextId, sessionId := sessionId, taskId := some taskId,
                  filename := f.name, filepath := f.relPath,
                  fileType := getFileType f.suffix,
                  fileSize := some f.size } :: new, ?_, ?_, ?_⟩
        · rw [h₁]
          simp
        · simp only [List.map_cons, List.filter_cons]
          rw [h₂]
          simp [hf]
        · intro r hr
          rcases List.mem_cons.mp hr with rfl | hr
          · rfl
          · exact h₃ r hr

/-- The files table after one Reconciler run is the old table plus the new
rows of the scan loop. -/
theorem scanOutputFiles_files (taskId sessionId : String) (d : List FsFile)
    (st : ManagerState) :
    (scanOutputFiles taskId sessionId d st).files =
      st.files ++ (scanLoop taskId sessionId
        (existingPaths sessionId st.files) d [] st.nextFileId).1 := rfl

/-- After a Reconciler run, every listed relative path is tracked for the
session. -/
theorem scan_covers (taskId sessionId : String) (d : List FsFile)
    (st : ManagerState) :
    ∀ f ∈ d, f.relPath ∈
      existingPaths sessionId (scanOutputFiles taskId sessionId d st).files := by
  intro f hfmem
  rw [scanOutputFiles_files]
  obtain ⟨new, h₁, h₂, h₃⟩ := scanLoop_chars taskId sessionId
    (existingPaths sessionId st.files) d [] st.nextFileId
  rw [h₁]
  by_cases hf : f.relPath ∈ existingPaths sessionId st.files
  · rw [mem_existingPaths] at hf ⊢
    obtain ⟨r, hr, hs, hx⟩ := hf
    exact ⟨r, by simp [hr], hs, hx⟩
  · have hmap : (f.relPath, some taskId) ∈
        new.map (fun r => (r.filepath, r.taskId)) := by
      rw [h₂]
      exact List.mem_map_of_mem _ (List.mem_filter.mpr ⟨hfmem, by simpa using hf⟩)
    obtain ⟨r, hr, hreq⟩ := List.mem_map.mp hmap
    rw [mem_existingPaths]
    refine ⟨r, by simp [hr], h₃ r hr, ?_⟩
    exact (congrArg Prod.fst hreq)

/-- A Reconciler run over a listing whose paths are all already tracked
adds nothing. -/
theorem scan_noop_of_covered (taskId sessionId : String) (d : List FsFile)
    (st : ManagerState)
    (hcov : ∀ f ∈ d, f.relPath ∈ existingPaths sessionId st.files) :
    (scanOutputFiles taskId sessionId d st).files = st.files := by
  rw [scanOutputFiles_files]
  obtain ⟨new, h₁, h₂, h₃⟩ := scanLoop_chars taskId sessionId
    (existingPaths sessionId st.files) d [] st.nextFileId
  rw [h₁]
  have hfilter : d.filter (fun f =>
      decide (f.relPath ∉ existingPaths sessionId st.files)) = [] := by
    rw [List.filter_eq_nil_iff]
    intro f hf
    simpa using hcov f hf
  rw [hfilter] at h₂
  simp only [List.map_nil] at h₂
  have hnew : new = [] := by
    cases new with
    | nil => rfl
    | cons a as => simp at h₂
  rw [hnew]
  simp

/-- One Reconciler run preserves the (session_id, filepath) uniqueness
invariant when the directory listing has no duplicate relative paths. -/
theorem scan_preserves_unique (taskId sessionId : String) (d : List FsFile)
    (st : ManagerState) (hu : outputKeyUnique st.files)
    (hnd : (d.map FsFile.relPath).Nodup) :
    outputKeyUnique (scanOutputFiles taskId sessionId d st).files := by
  rw [scanOutputFiles_files]
  obtain ⟨new, h₁, h₂, h₃⟩ := scanLoop_chars taskId sessionId
    (existingPaths sessionId st.files) d [] st.nextFileId
  rw [h₁]
  have hpaths : new.map OutputFileRow.filepath =
      (d.filter (fun f =>
        decide (f.relPath ∉ existingPaths sessionId st.files))).map
        FsFile.relPath := by
    have := congrArg (List.map Prod.fst) h₂
    simpa [List.map_map, Function.comp] using this
  have hnodup : (new.map OutputFileRow.filepath).Nodup := by
    rw [hpaths]
    exact hnd.sublist ((List.filter_sublist _).map FsFile.relPath)
  have hfresh : ∀ r ∈ new, r.filepath ∉ existingPaths sessionId st.files := by
    intro r hr
    have hmap : (r.filepath, r.taskId) ∈
        new.map (fun r => (r.filepath, r.taskId)) := List.mem_map_of_mem _ hr
    rw [h₂] at hmap
    obtain ⟨f, hfmem, hfeq⟩ := List.mem_map.mp hmap
    have hfp : f.relPath = r.filepath := congrArg Prod.fst hfeq
    have := (List.mem_filter.mp hfmem).2
    rw [hfp] at this
    simpa using this
  unfold outputKeyUnique
  rw [List.pairwise_append]
  refine ⟨hu, ?_, ?_⟩
  · have hpw : List.Pairwise (fun a b => a ≠ b)
        (new.map OutputFileRow.filepath) := hnodup
    have := (List.pairwise_map).mp hpw
    exact this.imp (fun hab hcon => hab hcon.2)
  · intro a ha b hb hcon
    have hb' : b ∈ new := by simpa using hb
    have hbs : b.sessionId = sessionId := h₃ b hb'
    have hbfresh : b.filepath ∉ existingPaths sessionId st.files := hfresh b hb'
    apply hbfresh
    rw [mem_existingPaths]
    exact ⟨a, ha, by rw [hcon.1, hbs], hcon.2⟩

/-! ## Claim C7 -/

/-- C7: Reconciler idempotence and key uniqueness. A second run over the
same listing registers zero new rows, and an arbitrary sequence of
Reconciler runs over duplicate-free listings never violates
(session_id, filepath) uniqueness. -/
theorem reconciler_idempotent_unique (st : ManagerState)
    (taskId taskId₂ sessionId : String) (d : List FsFile)
    (scans : List (String × String × List FsFile))
    (hu : outputKeyUnique st.files)
    (hnd : ∀ s ∈ scans, (s.2.2.map FsFile.relPath).Nodup) :
    (scanOutputFiles taskId₂ sessionId d
        (scanOutputFiles taskId sessionId d st)).files =
      (scanOutputFiles taskId sessionId d st).files ∧
    outputKeyUnique (runScans scans st).files := by
  constructor
  · exact scan_noop_of_covered taskId₂ sessionId d _
      (scan_covers taskId sessionId d st)
  · induction scans generalizing st with
    | nil => exact hu
    | cons s rest ih =>
        have hstep := scan_preserves_unique s.1 s.2.1 s.2.2 st hu
          (hnd s (List.mem_cons_self _ _))
        have htail := ih _ hstep (fun s' hs' => hnd s' (List.mem_cons_of_mem _ hs'))
        simpa [runScans] using htail

/-- C7: witness — registering one markdown file twice over an initially
empty table. -/
theorem reconciler_idempotent_unique_witness :
    (scanOutputFiles "t2" "s1" [⟨"report.md", "report.md", 5, ".md"⟩]
        (scanOutputFiles "t1" "s1" [⟨"report.md", "report.md", 5, ".md"⟩]
          exTerminalState)).files =
      (scanOutputFiles "t1" "s1" [⟨"report.md", "report.md", 5, ".md"⟩]
        exTerminalState).files :=
  (reconciler_idempotent_unique exTerminalState "t1" "t2" "s1"
    [⟨"report.md", "report.md", 5, ".md"⟩]
    [("t1", "s1", [⟨"report.md", "report.md", 5, ".md"⟩])]
    List.Pairwise.nil (by decide)).1

/-! ## Claim C10 -/

/-- C10: every row the Reconciler registers carries the id of the task whose
completion triggered the scan, regardless of which task produced the file:
the registered rows correspond one to one, in listing order, to the listed
files whose relative path was untracked for the session, each with task_id
set to the scanning task. -/
theorem scan_attributes_new_files (taskId sessionId : String)
    (d : List FsFile) (st : ManagerState) :
    ∃ new, (scanOutputFiles taskId sessionId d st).files = st.files ++ new ∧
      new.map (fun r => (r.filepath, r.taskId)) =
        (d.filter (fun f =>
          decide (f.relPath ∉ existingPaths sessionId st.files))).map
          (fun f => (f.relPath, some taskId)) ∧
      ∀ r ∈ new, r.taskId = some taskId := by
  obtain ⟨new, h₁, h₂, h₃⟩ := scanLoop_chars taskId sessionId
    (existingPaths sessionId st.files) d [] st.nextFileId
  refine ⟨new, ?_, h₂, ?_⟩
  · rw [scanOutputFiles_files, h₁]
    simp
  · intro r hr
    have hmap : (r.filepath, r.taskId) ∈
        new.map (fun r => (r.filepath, r.taskId)) := List.mem_map_of_mem _ hr
    rw [h₂] at hmap
    obtain ⟨f, hfmem, hfeq⟩ := List.mem_map.mp hmap
    exact (congrArg Prod.snd hfeq).symm

/-! ## Orphaned queues: a queue handle no longer registered never changes -/

theorem lookupA_mem {β : Type} (l : List (String × β)) (k : String) (v : β)
    (h : lookupA l k = some v) : (k, v) ∈ l := by
  induction l with
  | nil => simp [lookupA] at h
  | cons p rest ih =>
      obtain ⟨k₀, v₀⟩ := p
      by_cases hk : k₀ = k
      · subst hk
        simp only [lookupA, if_pos rfl] at h
        have := Option.some.inj h
        subst this
        exact List.mem_cons_self _ _
      · simp only [lookupA, if_neg hk] at h
        exact List.mem_cons_of_mem _ (ih h)

theorem lookupA_none_keys {β : Type} (l : List (String × β)) (k : String)
    (h : lookupA l k = none) : ∀ p ∈ l, p.1 ≠ k := by
  induction l with
  | nil =>
      intro p hp
      simp at hp
  | cons p₀ rest ih =>
      obtain ⟨k₀, v₀⟩ := p₀
      by_cases hk : k₀ = k
      · simp [lookupA, hk] at h
      · intro p hp
        rcases List.mem_cons.mp hp with rfl | hp
        · exact hk
        · simp only [lookupA, if_neg hk] at h
          exact ih h p hp

theorem mem_setA {β : Type} (l : List (String × β)) (k : String) (v : β)
    (p : String × β) (h : p ∈ setA l k v) :
    (p.1 = k ∧ p.2 = v) ∨ (p ∈ l ∧ p.1 ≠ k) := by
  induction l with
  | nil => simp [setA] at h
  | cons p₀ rest ih =>
      obtain ⟨k₀, v₀⟩ := p₀
      simp only [setA] at h
      rcases List.mem_cons.mp h with rfl | h
      · by_cases hk : k₀ = k
        · left
          exact ⟨hk, by simp [hk]⟩
        · right
          exact ⟨by simp [hk, List.mem_cons], hk⟩
      · rcases ih h with h₁ | ⟨h₂, h₃⟩
        · exact Or.inl h₁
        · exact Or.inr ⟨List.mem_cons_of_mem _ h₂, h₃⟩

theorem mem_putA {β : Type} (l : List (String × β)) (k : String) (v : β)
    (p : String × β) (h : p ∈ putA l k v) :
    (p.1 = k ∧ p.2 = v) ∨ (p ∈ l ∧ p.1 ≠ k) := by
  unfold putA at h
  by_cases hs : (lookupA l k).isSome
  · rw [if_pos hs] at h
    exact mem_setA l k v p h
  · rw [if_neg hs] at h
    rcases List.mem_append.mp h with h | h
    · right
      refine ⟨h, ?_⟩
      have hnone : lookupA l k = none := by
        cases hl : lookupA l k with
        | none => rfl
        | some w => rw [hl] at hs; simp at hs
      exact lookupA_none_keys l k hnone p h
    · left
      have := List.mem_singleton.mp h
      subst this
      exact ⟨rfl, rfl⟩

theorem mem_dropA {β : Type} (l : List (String × β)) (k : String)
    (p : String × β) (h : p ∈ dropA l k) : p ∈ l := by
  induction l with
  | nil => simp [dropA] at h
  | cons p₀ rest ih =>
      obtain ⟨k₀, v₀⟩ := p₀
      by_cases hk : k₀ = k
      · simp only [dropA, if_pos hk] at h
        exact List.mem_cons_of_mem _ (ih h)
      · simp only [dropA, if_neg hk] at h
        rcases List.mem_cons.mp h with rfl | h
        · exact List.mem_cons_self _ _
        · exact List.mem_cons_of_mem _ (ih h)

theorem orphaned_pushEvent (q : Nat) (taskId : String) (ev : QueueEvent)
    (st : ManagerState) (h : orphaned q st) :
    orphaned q (pushEvent taskId ev st) ∧
    (pushEvent taskId ev st).queue q = st.queue q := by
  unfold pushEvent
  cases hr : lookupA st.streamRegistry taskId with
  | none => exact ⟨h, rfl⟩
  | some q' =>
      have hne : q' ≠ q := h.2 (taskId, q') (lookupA_mem _ _ _ hr)
      refine ⟨⟨h.1, h.2⟩, ?_⟩
      show lookupQ (mapAtQ st.queues q' _) q = lookupQ st.queues q
      exact lookupQ_mapAtQ_ne _ _ _ _ hne

theorem completeTask_orphan (q : Nat) (taskId content : String)
    (usage : Option Usage) (costUsd : Option ℚ) (st : ManagerState)
    (h : orphaned q st) :
    orphaned q (completeTask taskId content usage costUsd st) ∧
    (completeTask taskId content usage costUsd st).queue q = st.queue q := by
  obtain ⟨ho, hq⟩ := orphaned_pushEvent q taskId (QueueEvent.done "completed")
    { st with
        store := mapAtA st.store taskId (fun t =>
          { t with status := .completed, progress := 1,
                   progressMessage := some "Research complete",
                   completedAt := some st.clock,
                   lastStreamedContent := some content,
                   usageStats := usage, totalCostUsd := costUsd }),
        clock := st.clock + 1 } ⟨h.1, h.2⟩
  exact ⟨⟨ho.1, ho.2⟩, hq⟩

theorem failTask_orphan (q : Nat) (taskId errorMessage : String)
    (st : ManagerState) (h : orphaned q st) :
    orphaned q (failTask taskId errorMessage st) ∧
    (failTask taskId errorMessage st).queue q = st.queue q := by
  obtain ⟨ho, hq⟩ := orphaned_pushEvent q taskId (QueueEvent.error errorMessage)
    { st with
        store := mapAtA st.store taskId (fun t =>
          { t with status := .failed, errorMessage := some errorMessage,
                   completedAt := some st.clock }),
        clock := st.clock + 1 } ⟨h.1, h.2⟩
  exact ⟨⟨ho.1, ho.2⟩, hq⟩

theorem updateTaskProgress_orphan (q : Nat) (taskId : String) (progress : ℚ)
    (message : Option String) (st : ManagerState) (h : orphaned q st) :
    orphaned q (updateTaskProgress taskId progress message st) ∧
    (updateTaskProgress taskId progress message st).queue q = st.queue q := by
  obtain ⟨ho, hq⟩ := orphaned_pushEvent q taskId
    (QueueEvent.progress progress message)
    { st with
        store := mapAtA st.store taskId (fun t =>
          { t with progress := progress, progressMessage := message,
                   updatedAt := st.clock }),
        clock := st.clock + 1 } ⟨h.1, h.2⟩
  exact ⟨ho, hq⟩

/-- startTask rewrites the registry entry to a fresh queue id, appends the
fresh empty queue, and bumps the allocation counter, whatever the
running-task registry held. -/
theorem startTask_fields (taskId : String) (st : ManagerState) :
    (startTask taskId st).streamRegistry =
        putA st.streamRegistry taskId st.nextQueueId ∧
    (startTask taskId st).nextQueueId = st.nextQueueId + 1 ∧
    (startTask taskId st).queues = st.queues ++ [(st.nextQueueId, [])] := by
  unfold startTask freshQueue
  by_cases hm : taskId ∈ st.runningTasks
  · simp [hm]
  · simp [hm]

theorem startTask_orphan (q : Nat) (taskId : String) (st : ManagerState)
    (h : orphaned q st) :
    orphaned q (startTask taskId st) ∧
    (startTask taskId st).queue q = st.queue q := by
  obtain ⟨hreg, hnext, hqs⟩ := startTask_fields taskId st
  refine ⟨⟨?_, ?_⟩, ?_⟩
  · rw [hnext]
    exact Nat.lt_succ_of_lt h.1
  · intro p hp
    rw [hreg] at hp
    rcases mem_putA _ _ _ p hp with ⟨_, h₂⟩ | ⟨h₂, _⟩
    · rw [h₂]
      exact Nat.ne_of_gt h.1
    · exact h.2 p h₂
  · show lookupQ (startTask taskId st).queues q = lookupQ st.queues q
    rw [hqs, lookupQ_append]
    cases hl : lookupQ st.queues q with
    | none => simp [lookupQ, Nat.ne_of_gt h.1]
    | some l => rfl

theorem subscribeToTask_orphan (q : Nat) (taskId : String) (st : ManagerState)
    (h : orphaned q st) :
    orphaned q (subscribeToTask taskId st).2 ∧
    (subscribeToTask taskId st).2.queue q = st.queue q := by
  unfold subscribeToTask freshQueue
  cases hr : lookupA st.streamRegistry taskId with
  | some q₀ => exact ⟨h, rfl⟩
  | none =>
      refine ⟨⟨Nat.lt_succ_of_lt h.1, ?_⟩, ?_⟩
      · intro p hp
        rcases mem_putA _ _ _ p hp with ⟨_, h₂⟩ | ⟨h₂, _⟩
        · rw [h₂]
          exact Nat.ne_of_gt h.1
        · exact h.2 p h₂
      · show lookupQ (st.queues ++ [(st.nextQueueId, [])]) q = lookupQ st.queues q
        rw [lookupQ_append]
        cases hl : lookupQ st.queues q with
        | none => simp [lookupQ, Nat.ne_of_gt h.1]
        | some l => rfl

theorem orphaned_runnerStep (q : Nat) (taskId sessionId : String)
    (d : List FsFile) (rs : RunnerAcc) (ev : WorkerEvent)
    (h : orphaned q rs.mgr) :
    orphaned q (runnerStep taskId sessionId d rs ev).mgr ∧
    (runnerStep taskId sessionId d rs ev).mgr.queue q = rs.mgr.queue q := by
  cases ev with
  | token text =>
      rw [runnerStep_token]
      simp only
      by_cases hc : (rs.accumulated ++ text).length % 1000 < text.length
      · rw [if_pos hc]
        exact ⟨⟨h.1, h.2⟩, rfl⟩
      · rw [if_neg hc]
        exact ⟨h, rfl⟩
  | toolUse name =>
      rw [runnerStep_toolUse]
      simp only
      exact updateTaskProgress_orphan q taskId _ _ rs.mgr h
  | done usage costUsd =>
      rw [runnerStep_done]
      simp only
      obtain ⟨ho, hq⟩ := completeTask_orphan q taskId rs.accumulated usage
        costUsd (scanOutputFiles taskId sessionId d rs.mgr) ⟨h.1, h.2⟩
      exact ⟨ho, hq.trans rfl⟩
  | error message =>
      rw [runnerStep_error]
      simp only
      exact failTask_orphan q taskId _ rs.mgr h
  | other => exact ⟨h, rfl⟩

theorem orphaned_runFold (q : Nat) (taskId sessionId : String)
    (d : List FsFile) (evs : List WorkerEvent) (rs : RunnerAcc)
    (h : orphaned q rs.mgr) :
    orphaned q (runFold taskId sessionId d evs rs).mgr ∧
    (runFold taskId sessionId d evs rs).mgr.queue q = rs.mgr.queue q := by
  induction evs generalizing rs with
  | nil => exact ⟨h, rfl⟩
  | cons ev rest ih =>
      rw [runFold_cons]
      obtain ⟨h₁, h₂⟩ := orphaned_runnerStep q taskId sessionId d rs ev h
      obtain ⟨h₃, h₄⟩ := ih (runnerStep taskId sessionId d rs ev) h₁
      exact ⟨h₃, h₄.trans h₂⟩

theorem orphaned_runResearchTask (q : Nat) (taskId : String)
    (evs : List WorkerEvent) (d : List FsFile) (st : ManagerState)
    (h : orphaned q st) :
    orphaned q (runResearchTask taskId evs d st) ∧
    (runResearchTask taskId evs d st).queue q = st.queue q := by
  unfold runResearchTask
  cases htk : lookupA st.store taskId with
  | none => exact ⟨h, rfl⟩
  | some task =>
      simp only [tick]
      obtain ⟨h₁, h₂⟩ := orphaned_runFold q taskId task.sessionId d evs
        { accumulated := "", toolCount := 0,
          mgr := { st with
            store := mapAtA st.store taskId (fun t =>
              { t with status := .running, startedAt := some st.clock,
                       progress := 0,
                       progressMessage := some "Starting research..." }),
            clock := st.clock + 1 } } ⟨h.1, h.2⟩
      exact ⟨h₁, h₂.trans rfl⟩

theorem orphaned_applyOp (q : Nat) (st : ManagerState) (op : ManagerOp)
    (h : orphaned q st) :
    orphaned q (applyOp st op) ∧ (applyOp st op).queue q = st.queue q := by
  cases op with
  | create sessionId prompt taskType taskId =>
      by_cases hs : sessionId ∈ st.sessions
      · simp only [applyOp, createTask, tick, if_pos hs]
        exact ⟨⟨h.1, h.2⟩, rfl⟩
      · simp only [applyOp, createTask, tick, if_neg hs]
        exact ⟨⟨h.1, h.2⟩, rfl⟩
  | start taskId => exact startTask_orphan q taskId st h
  | updateProgress taskId progress message =>
      exact updateTaskProgress_orphan q taskId progress message st h
  | updateContent taskId content => exact ⟨⟨h.1, h.2⟩, rfl⟩
  | complete taskId content usage costUsd =>
      exact completeTask_orphan q taskId content usage costUsd st h
  | fail taskId errorMessage => exact failTask_orphan q taskId errorMessage st h
  | subscribe taskId => exact subscribeToTask_orphan q taskId st h
  | cancel taskId =>
      by_cases hm : taskId ∈ st.runningTasks
      · simp only [applyOp, cancelTask, if_pos hm, tick]
        obtain ⟨ho, hq⟩ := orphaned_pushEvent q taskId
          (QueueEvent.done "cancelled")
          { st with
              store := mapAtA st.store taskId (fun t =>
                { t with status := .cancelled,
                         completedAt := some st.clock }),
              clock := st.clock + 1 } ⟨h.1, h.2⟩
        exact ⟨⟨ho.1, ho.2⟩, hq⟩
      · simp only [applyOp, cancelTask, if_neg hm]
        exact ⟨h, trivial⟩
  | cleanup taskId =>
      refine ⟨⟨h.1, ?_⟩, rfl⟩
      intro p hp
      exact h.2 p (mem_dropA _ _ p hp)
  | run taskId events dirFiles =>
      exact orphaned_runResearchTask q taskId events dirFiles st h

theorem orphaned_applyOps (q : Nat) (ops : List ManagerOp) (st : ManagerState)
    (h : orphaned q st) :
    orphaned q (applyOps ops st) ∧ (applyOps ops st).queue q = st.queue q := by
  induction ops generalizing st with
  | nil => exact ⟨h, rfl⟩
  | cons op rest ih =>
      obtain ⟨h₁, h₂⟩ := orphaned_applyOp q st op h
      obtain ⟨h₃, h₄⟩ := ih (applyOp st op) h₁
      exact ⟨h₃, h₄.trans h₂⟩

/-! ## Claim C9 -/

/-- C9: start_task unconditionally installs a fresh queue, so a queue handle
obtained by subscribe_to_task before start_task ran is no longer the one
registered for the task afterwards, and the handle is orphaned: no
subsequent sequence of TaskManager operations or whole runner executions
ever changes its contents, so the old observer receives none of the task
events. -/
theorem start_replaces_subscriber_queue (st : ManagerState) (taskId : String)
    (ha : ∀ p ∈ st.streamRegistry, p.2 < st.nextQueueId)
    (hb : (st.streamRegistry.map Prod.snd).Nodup) :
    lookupA (startTask taskId (subscribeToTask taskId st).2).streamRegistry
        taskId ≠ some (subscribeToTask taskId st).1 ∧
    orphaned (subscribeToTask taskId st).1
      (startTask taskId (subscribeToTask taskId st).2) ∧
    ∀ ops, (applyOps ops (startTask taskId
        (subscribeToTask taskId st).2)).queue (subscribeToTask taskId st).1 =
      (startTask taskId (subscribeToTask taskId st).2).queue
        (subscribeToTask taskId st).1 := by
  have main : lookupA (startTask taskId
        (subscribeToTask taskId st).2).streamRegistry taskId ≠
        some (subscribeToTask taskId st).1 ∧
      orphaned (subscribeToTask taskId st).1
        (startTask taskId (subscribeToTask taskId st).2) := by
    cases hr : lookupA st.streamRegistry taskId with
    | some q₀ =>
        have hsub : subscribeToTask taskId st = (q₀, st) := by
          unfold subscribeToTask
          rw [hr]
        rw [hsub]
        simp only
        obtain ⟨hreg, hnext, hqs⟩ := startTask_fields taskId st
        have hq₀ : q₀ < st.nextQueueId := ha (taskId, q₀) (lookupA_mem _ _ _ hr)
        constructor
        · rw [hreg, lookupA_putA_self]
          intro hcon
          exact Nat.ne_of_gt hq₀ (Option.some.inj hcon)
        · refine ⟨?_, ?_⟩
          · rw [hnext]
            exact Nat.lt_succ_of_lt hq₀
          · intro p hp
            rw [hreg] at hp
            rcases mem_putA _ _ _ p hp with ⟨_, h₂⟩ | ⟨h₂, h₃⟩
            · rw [h₂]
              exact Nat.ne_of_gt hq₀
            · intro hcon
              have hmem₀ : (taskId, q₀) ∈ st.streamRegistry :=
                lookupA_mem _ _ _ hr
              have hpe : p = (taskId, q₀) :=
                List.inj_on_of_nodup_map hb h₂ hmem₀ (by simpa using hcon)
              exact h₃ (by rw [hpe])
    | none =>
        have hsub : subscribeToTask taskId st =
            (st.nextQueueId,
             { st with
                 streamRegistry := putA st.streamRegistry taskId st.nextQueueId,
                 queues := st.queues ++ [(st.nextQueueId, [])],
                 nextQueueId := st.nextQueueId + 1 }) := by
          unfold subscribeToTask freshQueue
          rw [hr]
        rw [hsub]
        simp only
        obtain ⟨hreg, hnext, hqs⟩ := startTask_fields taskId
          { st with
              streamRegistry := putA st.streamRegistry taskId st.nextQueueId,
              queues := st.queues ++ [(st.nextQueueId, [])],
              nextQueueId := st.nextQueueId + 1 }
        simp only at hreg hnext hqs
        constructor
        · rw [hreg, lookupA_putA_self]
          intro hcon
          have := Option.some.inj hcon
          omega
        · refine ⟨?_, ?_⟩
          · rw [hnext]
            omega
          · intro p hp
            rw [hreg] at hp
            rcases mem_putA _ _ _ p hp with ⟨_, h₂⟩ | ⟨h₂, h₃⟩
            · rw [h₂]
              omega
            · rcases mem_putA _ _ _ p h₂ with ⟨h₄, _⟩ | ⟨h₅, _⟩
              · exact absurd h₄ h₃
              · have := ha p h₅
                omega
  obtain ⟨h₁, h₂⟩ := main
  refine ⟨h₁, h₂, ?_⟩
  intro ops
  exact (orphaned_applyOps (subscribeToTask taskId st).1 ops _ h₂).2

/-- C9: witness — subscribe then start on a fresh state, then one progress
push: the old handle is not the registered queue and its contents do not
change. -/
theorem start_replaces_subscriber_queue_witness :
    lookupA (startTask "t1"
        (subscribeToTask "t1" exTerminalState).2).streamRegistry "t1" ≠
      some (subscribeToTask "t1" exTerminalState).1 ∧
    (applyOps [ManagerOp.updateProgress "t1" (1/2) none]
        (startTask "t1" (subscribeToTask "t1" exTerminalState).2)).queue
      (subscribeToTask "t1" exTerminalState).1 =
    (startTask "t1" (subscribeToTask "t1" exTerminalState).2).queue
      (subscribeToTask "t1" exTerminalState).1 := by
  obtain ⟨h₁, h₂, h₃⟩ := start_replaces_subscriber_queue exTerminalState "t1"
    (by decide) (by decide)
  exact ⟨h₁, h₃ [ManagerOp.updateProgress "t1" (1/2) none]⟩

end ResearchApp
